import Mathlib

/-!
# The command-line driver of the S-expression prettifier

A shallow embedding of `sexp_prettify_cpp_cli.cpp`.  The driver parses options
with `getopt`, picks a source and a destination stream, configures the
formatting engine and then feeds the source to it one character at a time.

What the driver does to the outside world is recorded as a sequence of events,
in program order.  The engine itself (declared in `sexp_prettify.h`) is not part
of the driver source and is a parameter of the embedding.
-/

namespace SexpPrettifyCli

/-- The enum `styleProfile`. -/
inductive styleProfile
  | STYLE_PROFILE_NONE
  | STYLE_PROFILE_KICAD_STANDARD
  | STYLE_PROFILE_KICAD_COMPACT
  deriving DecidableEq, Repr

/-- The table `compact_list_prefixes_kicad`. -/
def compact_list_prefixes_kicad : List String := ["pts"]

/-- The constant `compact_list_prefixes_kicad_size`: entries of the table. -/
def compact_list_prefixes_kicad_size : Nat := compact_list_prefixes_kicad.length

/-- The table `shortform_prefixes_kicad`. -/
def shortform_prefixes_kicad : List String :=
  ["font", "stroke", "fill", "offset", "rotate", "scale"]

/-- The constant `shortform_prefixes_kicad_size`: entries of the table. -/
def shortform_prefixes_kicad_size : Nat := shortform_prefixes_kicad.length

/-- What `sexp_prettify.h` declares: the four default constants and the four
operations on a `PrettifySExprState` (the type `σ`).  Each configuration
operation returns its `bool` result together with the state it leaves;
`sexp_prettify` returns the state it leaves together with the characters it
hands to the sink callback, in the order it hands them over. -/
structure Engine (σ : Type) where
  PRETTIFY_SEXPR_KICAD_DEFAULT_INDENT_CHAR : Char
  PRETTIFY_SEXPR_KICAD_DEFAULT_INDENT_SIZE : Int
  PRETTIFY_SEXPR_KICAD_DEFAULT_CONSECUTIVE_TOKEN_WRAP_THRESHOLD : Int
  PRETTIFY_SEXPR_KICAD_DEFAULT_COMPACT_LIST_COLUMN_LIMIT : Int
  zero : σ
  sexp_prettify_init : σ → Char → Int → Int → Bool × σ
  sexp_prettify_compact_list_set : σ → List String → Nat → Int → Bool × σ
  sexp_prettify_shortform_set : σ → List String → Nat → Bool × σ
  sexp_prettify : σ → Char → σ × List Char

/-- The streams the process can reach: the characters waiting on standard
input, for each path the characters an `std::ifstream` on it delivers (`none`
when `is_open()` is false), and for each path whether an `std::ofstream` on it
opens. -/
structure World where
  cin : List Char
  ifstream : String → Option (List Char)
  ofstream : String → Bool

/-- The value of `src_stream`. -/
inductive IStream
  | cin
  | file (path : String)
  deriving DecidableEq, Repr

/-- The value of `dst_stream`. -/
inductive OStream
  | cout
  | file (path : String)
  deriving DecidableEq, Repr

/-- One return of `getopt(argc, argv, "hl:s:w:k:p:")` other than `-1`, with the
value of `optarg` where the option takes an argument.  `unknown` stands for the
returns handled by `case '?'` and `default`, which have the same body. -/
inductive Opt
  | h
  | l (optarg : String)
  | s (optarg : String)
  | w (optarg : String)
  | k (optarg : String)
  | p (optarg : String)
  | unknown
  deriving DecidableEq, Repr

/-- What the driver does to the outside world: text it sends to `std::cout` or
`stderr`, a file stream it constructs (with what `is_open()` then says), a call
of one of the four engine operations (with what a configuration operation
returns), a character `get` delivers, a character the sink puts on a stream.
`main` makes no other call on a stream; in particular it never flushes one. -/
inductive Event
  | cout_write (text : String)
  | cerr_write (text : String)
  | open_ifstream (path : String) (is_open : Bool)
  | open_ofstream (path : String) (is_open : Bool)
  | sexp_prettify_init (indent_char : Char) (indent_size : Int) (wrap : Int) (ret : Bool)
  | sexp_prettify_compact_list_set (ptrs : List String) (count : Nat) (limit : Int) (ret : Bool)
  | sexp_prettify_shortform_set (ptrs : List String) (count : Nat) (ret : Bool)
  | get (src : IStream) (c : Char)
  | sexp_prettify (c : Char)
  | put (dst : OStream) (ch : Char)
  deriving DecidableEq, Repr

/-- How the process ends: `main` returns a status, an `assert` fails, or an
exception leaves `main`. -/
inductive Status
  | EXIT_SUCCESS
  | EXIT_FAILURE
  | assert_failed
  | uncaught_exception
  deriving DecidableEq, Repr

/-- A finished run: how it ended and what it did, in order. -/
structure Run where
  status : Status
  trace : List Event
  deriving DecidableEq, Repr

/-- The local variables of `main` that the option loop updates. -/
structure Locals where
  wrap_threshold : Int
  compact_list_prefixes : List String
  compact_list_prefixes_wrap_threshold : Int
  shortform_prefixes : List String
  kicad_profile_active : styleProfile
  deriving DecidableEq, Repr

/-- The C locale `isspace`, which `strtol` uses to skip leading blanks. -/
def isspace (c : Char) : Bool :=
  c = ' ' || c = '\t' || c = '\n' || c = '\x0b' || c = '\x0c' || c = '\r'

/-- The value of a run of decimal digits. -/
def digits_value (ds : List Char) : Int :=
  ds.foldl (fun acc d => 10 * acc + ((d.toNat : Int) - 48)) 0

/-- The library call `std::stoi(str)`: leading blanks are skipped, an optional
sign and the longest run of decimal digits are read, what follows is ignored.
`none` stands for the two exceptions it throws: `std::invalid_argument` when
there is no digit and `std::out_of_range` when the value is not an `int`. -/
def stoi (str : String) : Option Int :=
  let cs := str.toList.dropWhile isspace
  let signed : Bool × List Char :=
    match cs with
    | '-' :: r => (true, r)
    | '+' :: r => (false, r)
    | r => (false, r)
  let ds := signed.2.takeWhile Char.isDigit
  if ds = [] then none
  else
    let v := if signed.1 then - digits_value ds else digits_value ds
    if v < -2147483648 ∨ 2147483647 < v then none else some v

/-- The function `usage`: the text it sends to `std::cout`. -/
def usage {σ : Type} (E : Engine σ) (prog_name : String) (full : Bool) : String :=
  (if full then "S-Expression Formatter (Brian Khuu 2024)\n\n" else "")
  ++ "Usage:\n"
  ++ "  " ++ prog_name ++ " [OPTION]... SOURCE [DESTINATION]\n"
  ++ (if !full then "  " ++ prog_name ++ " -h          Show Full Help Message\n" else "")
  ++ "  SOURCE                Source file path. If \x27-\x27 then use standard stream input\n"
  ++ "  DESTINATION           Destination file path. If omitted or \x27-\x27 then use standard stream output\n\n"
  ++ (if full then
        "Options:\n"
        ++ "  -h                 Show Help Message\n"
        ++ "  -w WRAP_THRESHOLD  Set Wrap Threshold. Must be positive value. (default "
        ++ toString E.PRETTIFY_SEXPR_KICAD_DEFAULT_CONSECUTIVE_TOKEN_WRAP_THRESHOLD ++ ")\n"
        ++ "  -l COMPACT_LIST    Add To Compact List. Must be a string.\n"
        ++ "  -k COLUMN_LIMIT    Set Compact List Column Limit. Must be positive value. (default "
        ++ toString E.PRETTIFY_SEXPR_KICAD_DEFAULT_COMPACT_LIST_COLUMN_LIMIT ++ ")\n"
        ++ "  -s SHORTFORM       Add To Shortform List. Must be a string.\n"
        ++ "  -p PROFILE         Predefined Style. (kicad, kicad-compact)\n"
        ++ "Example:\n"
        ++ "  - Use standard input and standard output. Also use KiCAD\x27s standard compact list and shortform setting.\n"
        ++ "    " ++ prog_name ++ " -l pts -s font -s stroke -s fill -s offset -s rotate -s scale - -\n"
      else "")

/-- The values the locals of `main` have when the option loop starts. -/
def initial_locals {σ : Type} (E : Engine σ) : Locals where
  wrap_threshold := E.PRETTIFY_SEXPR_KICAD_DEFAULT_CONSECUTIVE_TOKEN_WRAP_THRESHOLD
  compact_list_prefixes := []
  compact_list_prefixes_wrap_threshold := E.PRETTIFY_SEXPR_KICAD_DEFAULT_COMPACT_LIST_COLUMN_LIMIT
  shortform_prefixes := []
  kicad_profile_active := styleProfile.STYLE_PROFILE_NONE

/-- The profile `case 'p'` leaves in `kicad_profile_active`: the two `strcmp`
tests assign it, and it keeps its value when neither matches. -/
def profile_after (active : styleProfile) (optarg : String) : styleProfile :=
  if optarg = "kicad" then styleProfile.STYLE_PROFILE_KICAD_STANDARD
  else if optarg = "kicad-compact" then styleProfile.STYLE_PROFILE_KICAD_COMPACT
  else active

/-- The body of the `switch (c)` of `main` for one option: either `main` ends
there (`Except.error`, with the run so far) or the loop goes on with the
updated locals. -/
def option_case {σ : Type} (E : Engine σ) (prog_name : String) (L : Locals) :
    Opt → Except Run Locals
  | Opt.h => Except.error ⟨Status.EXIT_SUCCESS, [Event.cout_write (usage E prog_name true)]⟩
  | Opt.l optarg =>
    Except.ok { L with compact_list_prefixes := L.compact_list_prefixes ++ [optarg] }
  | Opt.s optarg =>
    Except.ok { L with shortform_prefixes := L.shortform_prefixes ++ [optarg] }
  | Opt.w optarg =>
    match stoi optarg with
    | none => Except.error ⟨Status.uncaught_exception, []⟩
    | some v =>
      if v ≤ 0 then
        Except.error ⟨Status.EXIT_FAILURE, [Event.cout_write (usage E prog_name false)]⟩
      else Except.ok { L with wrap_threshold := v }
  | Opt.k optarg =>
    match stoi optarg with
    | none => Except.error ⟨Status.uncaught_exception, []⟩
    | some v =>
      if v ≤ 0 then
        Except.error ⟨Status.EXIT_FAILURE, [Event.cout_write (usage E prog_name false)]⟩
      else Except.ok { L with compact_list_prefixes_wrap_threshold := v }
  | Opt.p optarg =>
    let active := profile_after L.kicad_profile_active optarg
    if active = styleProfile.STYLE_PROFILE_NONE then
      Except.error ⟨Status.EXIT_FAILURE,
        [Event.cerr_write "Must be either \x27kicad\x27 or \x27kicad-compact\x27",
         Event.cout_write (usage E prog_name false)]⟩
    else
      Except.ok
        { L with
          kicad_profile_active := active
          compact_list_prefixes :=
            if active = styleProfile.STYLE_PROFILE_KICAD_STANDARD
                ∨ active = styleProfile.STYLE_PROFILE_KICAD_COMPACT then
              [] ++ compact_list_prefixes_kicad.take compact_list_prefixes_kicad_size
            else []
          shortform_prefixes :=
            if active = styleProfile.STYLE_PROFILE_KICAD_COMPACT then
              [] ++ shortform_prefixes_kicad.take shortform_prefixes_kicad_size
            else [] }
  | Opt.unknown =>
    Except.error ⟨Status.EXIT_FAILURE, [Event.cout_write (usage E prog_name false)]⟩

/-- The option loop of `main`, over the successive returns of `getopt`: it ends
when `getopt` has no further option to return. -/
def option_loop {σ : Type} (E : Engine σ) (prog_name : String) :
    Locals → List Opt → Except Run Locals
  | L, [] => Except.ok L
  | L, o :: os =>
    match option_case E prog_name L o with
    | Except.error r => Except.error r
    | Except.ok L1 => option_loop E prog_name L1 os

/-- The block that sets `src_stream`: the events, and the stream with the
characters it will deliver, or `none` when `main` returns `EXIT_FAILURE`. -/
def open_src (W : World) (src_path : String) : List Event × Option (IStream × List Char) :=
  if src_path ≠ "-" then
    match W.ifstream src_path with
    | none =>
      ([Event.open_ifstream src_path false,
        Event.cerr_write ("Error opening source file: " ++ src_path ++ "\n")], none)
    | some data => ([Event.open_ifstream src_path true], some (IStream.file src_path, data))
  else ([], some (IStream.cin, W.cin))

/-- The block that sets `dst_stream`; `dst_path` is `none` for `nullptr`. -/
def open_dst (W : World) (dst_path : Option String) : List Event × Option OStream :=
  match dst_path with
  | none => ([], some OStream.cout)
  | some path =>
    if path ≠ "-" then
      if W.ofstream path then ([Event.open_ofstream path true], some (OStream.file path))
      else
        ([Event.open_ofstream path false,
          Event.cerr_write ("Error opening destination file: " ++ path ++ "\n")], none)
    else ([], some OStream.cout)

/-- The block `if (!compact_list_prefixes.empty())` with its asserted call, run
on the state `state`: the events, and the state left, or `none` when the
`assert` fails. -/
def configure_compact {σ : Type} (E : Engine σ) (L : Locals) (state : σ) :
    List Event × Option σ :=
  if L.compact_list_prefixes ≠ [] then
    let compact_list_ptrs := L.compact_list_prefixes
    let r := E.sexp_prettify_compact_list_set state compact_list_ptrs compact_list_ptrs.length
      L.compact_list_prefixes_wrap_threshold
    ([Event.sexp_prettify_compact_list_set compact_list_ptrs compact_list_ptrs.length
        L.compact_list_prefixes_wrap_threshold r.1],
     if r.1 then some r.2 else none)
  else ([], some state)

/-- The block `if (!shortform_prefixes.empty())` with its asserted call. -/
def configure_shortform {σ : Type} (E : Engine σ) (L : Locals) (state : σ) :
    List Event × Option σ :=
  if L.shortform_prefixes ≠ [] then
    let shortform_ptrs := L.shortform_prefixes
    let r := E.sexp_prettify_shortform_set state shortform_ptrs shortform_ptrs.length
    ([Event.sexp_prettify_shortform_set shortform_ptrs shortform_ptrs.length r.1],
     if r.1 then some r.2 else none)
  else ([], some state)

/-- The block under "Initialize state": the asserted `sexp_prettify_init` on the
zeroed state, then the two conditional blocks.  `none` when an `assert` fails,
else the state the calls leave.  The asserts are live (`NDEBUG` is not
defined), so each call is made and a `false` return ends the process. -/
def configure {σ : Type} (E : Engine σ) (L : Locals) : List Event × Option σ :=
  let r0 := E.sexp_prettify_init E.zero E.PRETTIFY_SEXPR_KICAD_DEFAULT_INDENT_CHAR
    E.PRETTIFY_SEXPR_KICAD_DEFAULT_INDENT_SIZE L.wrap_threshold
  let e0 := Event.sexp_prettify_init E.PRETTIFY_SEXPR_KICAD_DEFAULT_INDENT_CHAR
    E.PRETTIFY_SEXPR_KICAD_DEFAULT_INDENT_SIZE L.wrap_threshold r0.1
  if r0.1 then
    match configure_compact E L r0.2 with
    | (ev1, none) => (e0 :: ev1, none)
    | (ev1, some state1) =>
      match configure_shortform E L state1 with
      | (ev2, none) => (e0 :: ev1 ++ ev2, none)
      | (ev2, some state2) => (e0 :: ev1 ++ ev2, some state2)
  else ([e0], none)

/-- The lambda `putc_handler`: the character goes to the stream the context
points at. -/
def putc_handler (ch : Char) (context_putc : OStream) : Event :=
  Event.put context_putc ch

/-- The loop under "Process the input": each character the source delivers is
read, handed to `sexp_prettify`, and the sink is called on what the engine
hands over; the loop ends when `get` fails. -/
def process {σ : Type} (E : Engine σ) (src_stream : IStream) (dst_stream : OStream) :
    σ → List Char → List Event
  | _, [] => []
  | state, c :: cs =>
    let r := E.sexp_prettify state c
    Event.get src_stream c :: Event.sexp_prettify c
      :: (r.2.map (fun ch => putc_handler ch dst_stream)
          ++ process E src_stream dst_stream r.1 cs)

/-- The function `main`.  `prog_name` is `argv[0]`, `opts` the successive
returns of `getopt`, `operands` the arguments from `argv[optind]` on when the
option loop ends. -/
def main {σ : Type} (E : Engine σ) (W : World) (prog_name : String) (opts : List Opt)
    (operands : List String) : Run :=
  match option_loop E prog_name (initial_locals E) opts with
  | Except.error r => r
  | Except.ok L =>
    match operands with
    | [] => ⟨Status.EXIT_SUCCESS, [Event.cout_write (usage E prog_name true)]⟩
    | src_path :: rest =>
      let dst_path : Option String := rest.head?
      match open_src W src_path with
      | (ev_src, none) => ⟨Status.EXIT_FAILURE, ev_src⟩
      | (ev_src, some (src_stream, input)) =>
        match open_dst W dst_path with
        | (ev_dst, none) => ⟨Status.EXIT_FAILURE, ev_src ++ ev_dst⟩
        | (ev_dst, some dst_stream) =>
          match configure E L with
          | (ev_cfg, none) => ⟨Status.assert_failed, ev_src ++ ev_dst ++ ev_cfg⟩
          | (ev_cfg, some state) =>
            ⟨Status.EXIT_SUCCESS,
              ev_src ++ ev_dst ++ ev_cfg ++ process E src_stream dst_stream state input⟩

/-- Modelled from the spec: the `Configuration` a state owns (section 3), which
the engine source, absent from the driver, keeps in `PrettifySExprState`. -/
structure Configuration where
  indent_char : Char
  indent_size : Int
  wrap_threshold : Int
  compact_list : List String
  column_limit : Int
  shortform : List String
  deriving DecidableEq, Repr

/-- Modelled from the spec: the three configuration operations of the engine,
absent from the driver source, with the failures section 4.1 gives them
(`configure` fails on a non-positive indent size or wrap threshold,
`set_compact_list` on a non-positive column limit, an empty list or an empty
entry, `set_shortform` on an empty list or an empty entry; a failing operation
leaves the configuration as it was), and the defaults of Scenario A.  The
per-character operation of this instance hands each character it receives to
the sink as it is: the layout rules play no part in what is proved of the
driver. -/
def spec_engine : Engine Configuration where
  PRETTIFY_SEXPR_KICAD_DEFAULT_INDENT_CHAR := ' '
  PRETTIFY_SEXPR_KICAD_DEFAULT_INDENT_SIZE := 2
  PRETTIFY_SEXPR_KICAD_DEFAULT_CONSECUTIVE_TOKEN_WRAP_THRESHOLD := 5
  PRETTIFY_SEXPR_KICAD_DEFAULT_COMPACT_LIST_COLUMN_LIMIT := 40
  zero := ⟨Char.ofNat 0, 0, 0, [], 0, []⟩
  sexp_prettify_init := fun st indent_char indent_size wrap_threshold =>
    if indent_size ≤ 0 ∨ wrap_threshold ≤ 0 then (false, st)
    else (true, { st with indent_char := indent_char, indent_size := indent_size,
                          wrap_threshold := wrap_threshold })
  sexp_prettify_compact_list_set := fun st ptrs count column_limit =>
    if column_limit ≤ 0 ∨ count = 0 ∨ "" ∈ ptrs.take count then (false, st)
    else (true, { st with compact_list := ptrs.take count, column_limit := column_limit })
  sexp_prettify_shortform_set := fun st ptrs count =>
    if count = 0 ∨ "" ∈ ptrs.take count then (false, st)
    else (true, { st with shortform := ptrs.take count })
  sexp_prettify := fun st c => (st, [c])

/-- A world for the examples: standard input holds `(a b)`, the file `in.sexp`
holds `(pts)`, no other file can be read, and every file but `/ro/out` can be
written. -/
def example_world : World where
  cin := ['(', 'a', ' ', 'b', ')']
  ifstream := fun path => if path = "in.sexp" then some ['(', 'p', 't', 's', ')'] else none
  ofstream := fun path => path ≠ "/ro/out"

/-! ## Reading a run -/

/-- The characters a trace hands to `sexp_prettify`, in order. -/
def fed (tr : List Event) : List Char :=
  tr.filterMap (fun ev => match ev with
    | Event.sexp_prettify c => some c
    | _ => none)

/-- The characters a trace reads with `get`, in order. -/
def got (tr : List Event) : List Char :=
  tr.filterMap (fun ev => match ev with
    | Event.get _ c => some c
    | _ => none)

/-- The characters a trace puts on the stream `dst`, in order. -/
def written (dst : OStream) (tr : List Event) : List Char :=
  tr.filterMap (fun ev => match ev with
    | Event.put d ch => if d = dst then some ch else none
    | _ => none)

/-- The three configuration operations of the engine. -/
def is_config_call : Event → Bool
  | Event.sexp_prettify_init _ _ _ _ => true
  | Event.sexp_prettify_compact_list_set _ _ _ _ => true
  | Event.sexp_prettify_shortform_set _ _ _ => true
  | _ => false

/-- The four operations of the engine. -/
def is_engine_call : Event → Bool
  | Event.sexp_prettify _ => true
  | ev => is_config_call ev

/-- The calls a trace makes to the engine, in order. -/
def engine_calls (tr : List Event) : List Event := tr.filter is_engine_call

/-- The text the driver itself sends to `std::cout` or `stderr`. -/
def is_write : Event → Bool
  | Event.cout_write _ => true
  | Event.cerr_write _ => true
  | _ => false

/-- The state of the engine after it has been fed `cs` from `state`. -/
def state_after {σ : Type} (E : Engine σ) (state : σ) (cs : List Char) : σ :=
  cs.foldl (fun st c => (E.sexp_prettify st c).1) state

/-- The option is a `-p`. -/
def is_p : Opt → Bool
  | Opt.p _ => true
  | _ => false

/-- The option touches a prefix list: `-l`, `-s` or `-p`. -/
def list_affecting : Opt → Bool
  | Opt.l _ => true
  | Opt.s _ => true
  | Opt.p _ => true
  | _ => false

/-- The arguments of the `-l` options, in order. -/
def l_args (opts : List Opt) : List String :=
  opts.filterMap (fun o => match o with
    | Opt.l a => some a
    | _ => none)

/-- The arguments of the `-s` options, in order. -/
def s_args (opts : List Opt) : List String :=
  opts.filterMap (fun o => match o with
    | Opt.s a => some a
    | _ => none)

/-- The command line of the example in the help text, as `getopt` returns it. -/
def help_example_opts : List Opt :=
  [Opt.l "pts", Opt.s "font", Opt.s "stroke", Opt.s "fill", Opt.s "offset",
   Opt.s "rotate", Opt.s "scale"]

/-! ## The option loop -/

theorem option_loop_append {σ : Type} (E : Engine σ) (prog : String) (L : Locals)
    (a b : List Opt) :
    option_loop E prog L (a ++ b) =
      match option_loop E prog L a with
      | Except.error r => Except.error r
      | Except.ok L1 => option_loop E prog L1 b := by
  induction a generalizing L with
  | nil => simp [option_loop]
  | cons o os ih =>
    simp only [List.cons_append, option_loop]
    cases h : option_case E prog L o with
    | error r => simp
    | ok L1 => simp [ih]

/-- A run the option loop ends holds only text the driver wrote. -/
theorem option_case_error_trace {σ : Type} (E : Engine σ) (prog : String) (L : Locals)
    (o : Opt) (r : Run) (h : option_case E prog L o = Except.error r) :
    ∀ ev ∈ r.trace, is_write ev = true := by
  cases o with
  | h => simp [option_case] at h; subst h; simp [is_write]
  | l a => simp [option_case] at h
  | s a => simp [option_case] at h
  | w a =>
    simp only [option_case] at h
    cases hs : stoi a with
    | none => simp [hs] at h; subst h; simp
    | some v =>
      simp only [hs] at h
      split at h
      · simp at h; subst h; simp [is_write]
      · simp at h
  | k a =>
    simp only [option_case] at h
    cases hs : stoi a with
    | none => simp [hs] at h; subst h; simp
    | some v =>
      simp only [hs] at h
      split at h
      · simp at h; subst h; simp [is_write]
      · simp at h
  | p a =>
    simp only [option_case] at h
    split at h
    · simp at h; subst h; simp [is_write]
    · simp at h
  | unknown => simp [option_case] at h; subst h; simp [is_write]

theorem option_loop_error_trace {σ : Type} (E : Engine σ) (prog : String) (L : Locals)
    (opts : List Opt) (r : Run) (h : option_loop E prog L opts = Except.error r) :
    ∀ ev ∈ r.trace, is_write ev = true := by
  induction opts generalizing L with
  | nil => simp [option_loop] at h
  | cons o os ih =>
    simp only [option_loop] at h
    cases hc : option_case E prog L o with
    | error r1 =>
      simp [hc] at h; subst h
      exact option_case_error_trace E prog L o r1 hc
    | ok L1 =>
      simp only [hc] at h
      exact ih L1 h

/-- The option loop keeps each of the two thresholds positive. -/
theorem option_case_pos {σ : Type} (E : Engine σ) (prog : String) (L L1 : Locals)
    (o : Opt) (h : option_case E prog L o = Except.ok L1) :
    (0 < L.wrap_threshold → 0 < L1.wrap_threshold)
    ∧ (0 < L.compact_list_prefixes_wrap_threshold →
        0 < L1.compact_list_prefixes_wrap_threshold) := by
  cases o with
  | h => simp [option_case] at h
  | l a => simp [option_case] at h; subst h; exact ⟨id, id⟩
  | s a => simp [option_case] at h; subst h; exact ⟨id, id⟩
  | w a =>
    simp only [option_case] at h
    cases hs : stoi a with
    | none => simp [hs] at h
    | some v =>
      simp only [hs] at h
      split at h
      · simp at h
      · simp at h; subst h; exact ⟨fun _ => by simpa using ‹¬ v ≤ 0›, id⟩
  | k a =>
    simp only [option_case] at h
    cases hs : stoi a with
    | none => simp [hs] at h
    | some v =>
      simp only [hs] at h
      split at h
      · simp at h
      · simp at h; subst h; exact ⟨id, fun _ => by simpa using ‹¬ v ≤ 0›⟩
  | p a =>
    simp only [option_case] at h
    split at h
    · simp at h
    · simp at h; subst h; exact ⟨id, id⟩
  | unknown => simp [option_case] at h

theorem option_loop_pos {σ : Type} (E : Engine σ) (prog : String) (L L1 : Locals)
    (opts : List Opt) (h : option_loop E prog L opts = Except.ok L1) :
    (0 < L.wrap_threshold → 0 < L1.wrap_threshold)
    ∧ (0 < L.compact_list_prefixes_wrap_threshold →
        0 < L1.compact_list_prefixes_wrap_threshold) := by
  induction opts generalizing L with
  | nil => simp [option_loop] at h; subst h; exact ⟨id, id⟩
  | cons o os ih =>
    simp only [option_loop] at h
    cases hc : option_case E prog L o with
    | error r1 => simp [hc] at h
    | ok L2 =>
      simp only [hc] at h
      have h2 := option_case_pos E prog L L2 o hc
      have h3 := ih L2 h
      exact ⟨fun hw => h3.1 (h2.1 hw), fun hk => h3.2 (h2.2 hk)⟩

/-! ## The stream blocks, the configuration block and the processing loop -/

theorem open_src_cases (W : World) (src : String) :
    (src = "-" ∧ open_src W src = ([], some (IStream.cin, W.cin)))
    ∨ (src ≠ "-" ∧ ∃ data, W.ifstream src = some data
        ∧ open_src W src = ([Event.open_ifstream src true], some (IStream.file src, data)))
    ∨ (src ≠ "-" ∧ W.ifstream src = none
        ∧ open_src W src =
          ([Event.open_ifstream src false,
            Event.cerr_write ("Error opening source file: " ++ src ++ "\n")], none)) := by
  by_cases h : src = "-"
  · left; simp [open_src, h]
  · right
    cases hf : W.ifstream src with
    | none => right; simp [open_src, h, hf]
    | some data => left; simp [open_src, h, hf]

theorem open_dst_cases (W : World) (dst : Option String) :
    ((dst = none ∨ dst = some "-") ∧ open_dst W dst = ([], some OStream.cout))
    ∨ (∃ path, dst = some path ∧ path ≠ "-" ∧ W.ofstream path = true
        ∧ open_dst W dst = ([Event.open_ofstream path true], some (OStream.file path)))
    ∨ (∃ path, dst = some path ∧ path ≠ "-" ∧ W.ofstream path = false
        ∧ open_dst W dst =
          ([Event.open_ofstream path false,
            Event.cerr_write ("Error opening destination file: " ++ path ++ "\n")], none)) := by
  cases dst with
  | none => left; simp [open_dst]
  | some path =>
    by_cases h : path = "-"
    · left; simp [open_dst, h]
    · right
      cases hf : W.ofstream path with
      | false => right; exact ⟨path, rfl, h, hf, by simp [open_dst, h, hf]⟩
      | true => left; exact ⟨path, rfl, h, hf, by simp [open_dst, h, hf]⟩

/-- Every event of the configuration block is one of the three asserted calls,
made on the locals the option loop left. -/
theorem mem_configure {σ : Type} (E : Engine σ) (L : Locals) (ev : Event)
    (h : ev ∈ (configure E L).1) :
    (∃ ret, ev = Event.sexp_prettify_init E.PRETTIFY_SEXPR_KICAD_DEFAULT_INDENT_CHAR
        E.PRETTIFY_SEXPR_KICAD_DEFAULT_INDENT_SIZE L.wrap_threshold ret)
    ∨ (L.compact_list_prefixes ≠ [] ∧ ∃ ret, ev = Event.sexp_prettify_compact_list_set
        L.compact_list_prefixes L.compact_list_prefixes.length
        L.compact_list_prefixes_wrap_threshold ret)
    ∨ (L.shortform_prefixes ≠ [] ∧ ∃ ret, ev = Event.sexp_prettify_shortform_set
        L.shortform_prefixes L.shortform_prefixes.length ret) := by
  unfold configure configure_compact configure_shortform at h
  by_cases hc : L.compact_list_prefixes = [] <;> by_cases hs : L.shortform_prefixes = []
    <;> simp only [hc, hs, ne_eq, not_true_eq_false, not_false_eq_true, if_true, if_false] at h
    <;> (repeat' split at h) <;> simp at h <;> aesop

theorem process_fed {σ : Type} (E : Engine σ) (src : IStream) (dst : OStream) (state : σ)
    (input : List Char) : fed (process E src dst state input) = input := by
  induction input generalizing state with
  | nil => simp [process, fed]
  | cons c cs ih =>
    have h := ih (E.sexp_prettify state c).1
    simp only [fed] at h
    simp [process, fed, List.filterMap_append, putc_handler, h]

theorem process_got {σ : Type} (E : Engine σ) (src : IStream) (dst : OStream) (state : σ)
    (input : List Char) : got (process E src dst state input) = input := by
  induction input generalizing state with
  | nil => simp [process, got]
  | cons c cs ih =>
    have h := ih (E.sexp_prettify state c).1
    simp only [got] at h
    simp [process, got, List.filterMap_append, putc_handler, h]

theorem process_engine_calls {σ : Type} (E : Engine σ) (src : IStream) (dst : OStream)
    (state : σ) (input : List Char) :
    engine_calls (process E src dst state input) = input.map Event.sexp_prettify := by
  induction input generalizing state with
  | nil => simp [process, engine_calls]
  | cons c cs ih =>
    have h := ih (E.sexp_prettify state c).1
    simp only [engine_calls] at h
    simp [process, engine_calls, List.filter_append, putc_handler, h, is_engine_call,
      is_config_call, List.filter_cons]

/-- Every event of the processing loop is a read from the source stream, a call
of `sexp_prettify`, or a character put on the destination stream. -/
theorem mem_process {σ : Type} (E : Engine σ) (src : IStream) (dst : OStream) (state : σ)
    (input : List Char) (ev : Event) (h : ev ∈ process E src dst state input) :
    (∃ c, ev = Event.get src c) ∨ (∃ c, ev = Event.sexp_prettify c)
      ∨ (∃ ch, ev = Event.put dst ch) := by
  induction input generalizing state with
  | nil => simp [process] at h
  | cons c cs ih =>
    simp only [process, List.mem_cons, List.mem_append, List.mem_map, putc_handler] at h
    rcases h with h | h | h | h
    · exact Or.inl ⟨c, h⟩
    · exact Or.inr (Or.inl ⟨c, h⟩)
    · obtain ⟨ch, _, rfl⟩ := h
      exact Or.inr (Or.inr ⟨ch, rfl⟩)
    · exact ih _ h

/-- What `main` is once the option loop has gone through and `SOURCE` is there. -/
theorem main_of_parsed {σ : Type} (E : Engine σ) (W : World) (prog : String)
    (opts : List Opt) (L : Locals) (src : String) (rest : List String)
    (h : option_loop E prog (initial_locals E) opts = Except.ok L) :
    main E W prog opts (src :: rest) =
      match open_src W src with
      | (ev_src, none) => ⟨Status.EXIT_FAILURE, ev_src⟩
      | (ev_src, some (src_stream, input)) =>
        match open_dst W rest.head? with
        | (ev_dst, none) => ⟨Status.EXIT_FAILURE, ev_src ++ ev_dst⟩
        | (ev_dst, some dst_stream) =>
          match configure E L with
          | (ev_cfg, none) => ⟨Status.assert_failed, ev_src ++ ev_dst ++ ev_cfg⟩
          | (ev_cfg, some state) =>
            ⟨Status.EXIT_SUCCESS,
              ev_src ++ ev_dst ++ ev_cfg ++ process E src_stream dst_stream state input⟩ := by
  simp [main, h]

/-- A configuration call in the trace of `main` is a call of the configuration
block, on the locals the option loop left. -/
theorem main_config_event {σ : Type} (E : Engine σ) (W : World) (prog : String)
    (opts : List Opt) (operands : List String) (ev : Event)
    (h : ev ∈ (main E W prog opts operands).trace) (hc : is_config_call ev = true) :
    ∃ L, option_loop E prog (initial_locals E) opts = Except.ok L
      ∧ ev ∈ (configure E L).1 := by
  cases hp : option_loop E prog (initial_locals E) opts with
  | error r =>
    have hw := option_loop_error_trace E prog _ opts r hp ev (by simpa [main, hp] using h)
    cases ev <;> simp [is_write, is_config_call] at hw hc
  | ok L =>
    refine ⟨L, rfl, ?_⟩
    cases operands with
    | nil =>
      simp [main, hp] at h; subst h; simp [is_config_call] at hc
    | cons src rest =>
      rw [main_of_parsed E W prog opts L src rest hp] at h
      have hproc : ∀ s d st inp, ev ∉ process E s d st inp := by
        intro s d st inp hm
        rcases mem_process E s d st inp ev hm with ⟨c, rfl⟩ | ⟨c, rfl⟩ | ⟨c, rfl⟩
          <;> simp [is_config_call] at hc
      have hsrc : ev ∉ (open_src W src).1 := by
        intro hm
        rcases open_src_cases W src with ⟨_, hs⟩ | ⟨_, data, _, hs⟩ | ⟨_, _, hs⟩
          <;> rw [hs] at hm <;> simp at hm
          <;> (try (rcases hm with rfl | rfl))
          <;> simp [is_config_call] at hc
      have hdst : ev ∉ (open_dst W rest.head?).1 := by
        intro hm
        rcases open_dst_cases W rest.head? with ⟨_, hd⟩ | ⟨q, _, _, _, hd⟩ | ⟨q, _, _, _, hd⟩
          <;> rw [hd] at hm <;> simp at hm
          <;> (try (rcases hm with rfl | rfl))
          <;> simp [is_config_call] at hc
      rcases hs : open_src W src with ⟨ev_src, _ | ⟨s, inp⟩⟩
      · rw [hs] at hsrc h
        exact absurd h hsrc
      · rcases hd : open_dst W rest.head? with ⟨ev_dst, _ | d⟩
        · rw [hs] at hsrc h
          rw [hd] at hdst h
          simp only [List.mem_append] at h
          rcases h with h | h
          · exact absurd h hsrc
          · exact absurd h hdst
        · rcases hcfg : configure E L with ⟨ev_cfg, _ | st⟩
          · rw [hs] at hsrc h
            rw [hd] at hdst h
            simp only [hcfg, List.mem_append] at h
            rcases h with (h | h) | h
            · exact absurd h hsrc
            · exact absurd h hdst
            · exact h
          · rw [hs] at hsrc h
            rw [hd] at hdst h
            simp only [hcfg, List.mem_append] at h
            rcases h with ((h | h) | h) | h
            · exact absurd h hsrc
            · exact absurd h hdst
            · exact h
            · exact absurd h (hproc _ _ _ _)

theorem mem_open_src (W : World) (src : String) (ev : Event) (h : ev ∈ (open_src W src).1) :
    (∃ b, ev = Event.open_ifstream src b) ∨ (∃ t, ev = Event.cerr_write t) := by
  rcases open_src_cases W src with ⟨_, hs⟩ | ⟨_, data, _, hs⟩ | ⟨_, _, hs⟩
    <;> rw [hs] at h <;> simp at h
  · exact Or.inl ⟨true, h⟩
  · rcases h with h | h
    · exact Or.inl ⟨false, h⟩
    · exact Or.inr ⟨_, h⟩

theorem mem_open_dst (W : World) (dst : Option String) (ev : Event)
    (h : ev ∈ (open_dst W dst).1) :
    (∃ path b, dst = some path ∧ path ≠ "-" ∧ ev = Event.open_ofstream path b)
      ∨ (∃ t, ev = Event.cerr_write t) := by
  rcases open_dst_cases W dst with ⟨_, hd⟩ | ⟨q, hq, hne, _, hd⟩ | ⟨q, hq, hne, _, hd⟩
    <;> rw [hd] at h <;> simp at h
  · exact Or.inl ⟨q, true, hq, hne, h⟩
  · rcases h with h | h
    · exact Or.inl ⟨q, false, hq, hne, h⟩
    · exact Or.inr ⟨_, h⟩

/-- The configuration block when no `assert` fails: `sexp_prettify_init`, then
`sexp_prettify_compact_list_set` when the compact list is not empty, then
`sexp_prettify_shortform_set` when the shortform list is not empty, each
returning `true`; with both lists empty the state is the one
`sexp_prettify_init` left. -/
theorem configure_some {σ : Type} (E : Engine σ) (L : Locals) (ev : List Event) (st : σ)
    (h : configure E L = (ev, some st)) :
    ev = Event.sexp_prettify_init E.PRETTIFY_SEXPR_KICAD_DEFAULT_INDENT_CHAR
          E.PRETTIFY_SEXPR_KICAD_DEFAULT_INDENT_SIZE L.wrap_threshold true
        :: ((if L.compact_list_prefixes ≠ [] then
              [Event.sexp_prettify_compact_list_set L.compact_list_prefixes
                L.compact_list_prefixes.length L.compact_list_prefixes_wrap_threshold true]
             else [])
          ++ (if L.shortform_prefixes ≠ [] then
              [Event.sexp_prettify_shortform_set L.shortform_prefixes
                L.shortform_prefixes.length true]
             else []))
    ∧ (L.compact_list_prefixes = [] → L.shortform_prefixes = [] →
        st = (E.sexp_prettify_init E.zero E.PRETTIFY_SEXPR_KICAD_DEFAULT_INDENT_CHAR
          E.PRETTIFY_SEXPR_KICAD_DEFAULT_INDENT_SIZE L.wrap_threshold).2) := by
  unfold configure configure_compact configure_shortform at h
  by_cases hc : L.compact_list_prefixes = [] <;> by_cases hs : L.shortform_prefixes = []
    <;> simp only [hc, hs, ne_eq, not_true_eq_false, not_false_eq_true, if_true, if_false] at h
    <;> (repeat' split at h) <;> simp at h <;> aesop

/-- The six ways a run of `main` can go. -/
theorem main_cases {σ : Type} (E : Engine σ) (W : World) (prog : String)
    (opts : List Opt) (operands : List String) :
    (∃ r, option_loop E prog (initial_locals E) opts = Except.error r
        ∧ main E W prog opts operands = r)
    ∨ (∃ L, option_loop E prog (initial_locals E) opts = Except.ok L ∧
        ((operands = []
            ∧ main E W prog opts operands
              = ⟨Status.EXIT_SUCCESS, [Event.cout_write (usage E prog true)]⟩)
        ∨ (∃ src rest, operands = src :: rest ∧
            ((∃ ev_src, open_src W src = (ev_src, none)
                ∧ main E W prog opts operands = ⟨Status.EXIT_FAILURE, ev_src⟩)
            ∨ (∃ ev_src s input, open_src W src = (ev_src, some (s, input)) ∧
                ((∃ ev_dst, open_dst W rest.head? = (ev_dst, none)
                    ∧ main E W prog opts operands = ⟨Status.EXIT_FAILURE, ev_src ++ ev_dst⟩)
                ∨ (∃ ev_dst d, open_dst W rest.head? = (ev_dst, some d) ∧
                    ((∃ ev_cfg, configure E L = (ev_cfg, none)
                        ∧ main E W prog opts operands
                          = ⟨Status.assert_failed, ev_src ++ ev_dst ++ ev_cfg⟩)
                    ∨ (∃ ev_cfg st, configure E L = (ev_cfg, some st)
                        ∧ main E W prog opts operands
                          = ⟨Status.EXIT_SUCCESS,
                              ev_src ++ ev_dst ++ ev_cfg ++ process E s d st input⟩))))))))) := by
  cases hp : option_loop E prog (initial_locals E) opts with
  | error r => left; exact ⟨r, rfl, by simp [main, hp]⟩
  | ok L =>
    right
    refine ⟨L, rfl, ?_⟩
    cases operands with
    | nil => left; exact ⟨rfl, by simp [main, hp]⟩
    | cons src rest =>
      right
      refine ⟨src, rest, rfl, ?_⟩
      rw [main_of_parsed E W prog opts L src rest hp]
      rcases hs : open_src W src with ⟨ev_src, _ | ⟨s, inp⟩⟩
      · left; exact ⟨ev_src, rfl, rfl⟩
      · right
        refine ⟨ev_src, s, inp, rfl, ?_⟩
        rcases hd : open_dst W rest.head? with ⟨ev_dst, _ | d⟩
        · left; exact ⟨ev_dst, rfl, rfl⟩
        · right
          refine ⟨ev_dst, d, rfl, ?_⟩
          rcases hcfg : configure E L with ⟨ev_cfg, _ | st⟩
          · left; exact ⟨ev_cfg, rfl, rfl⟩
          · right; exact ⟨ev_cfg, st, rfl, rfl⟩

theorem engine_calls_open_src (W : World) (src : String) :
    engine_calls (open_src W src).1 = [] := by
  simp only [engine_calls, List.filter_eq_nil_iff]
  intro ev hm
  rcases mem_open_src W src ev hm with ⟨b, rfl⟩ | ⟨t, rfl⟩
    <;> simp [is_engine_call, is_config_call]

theorem engine_calls_open_dst (W : World) (dst : Option String) :
    engine_calls (open_dst W dst).1 = [] := by
  simp only [engine_calls, List.filter_eq_nil_iff]
  intro ev hm
  rcases mem_open_dst W dst ev hm with ⟨q, b, _, _, rfl⟩ | ⟨t, rfl⟩
    <;> simp [is_engine_call, is_config_call]

theorem engine_calls_configure {σ : Type} (E : Engine σ) (L : Locals) :
    engine_calls (configure E L).1 = (configure E L).1 := by
  simp only [engine_calls, List.filter_eq_self]
  intro ev hm
  rcases mem_configure E L ev hm with ⟨r, rfl⟩ | ⟨_, r, rfl⟩ | ⟨_, r, rfl⟩
    <;> simp [is_engine_call, is_config_call]

/-! ## Non-positive thresholds -/

/-- C3, amended. When the option loop reaches a `-w` or a `-k` whose argument
`std::stoi` reads as an `int` `v ≤ 0`, that is an integer value `≤ 0` within
the range of `int` (the options before it went through), `main` returns
`EXIT_FAILURE` having done nothing but print the short usage text: no file is
opened, the engine is not initialised and no character is read.  Hence, when
the two header defaults are positive, every `sexp_prettify_init` call of any run
gets a strictly positive wrap threshold and every `sexp_prettify_compact_list_set`
call a strictly positive column limit. -/
theorem nonpositive_threshold_rejected {σ : Type} (E : Engine σ) (W : World) (prog : String) :
    (∀ (pre post : List Opt) (arg : String) (operands : List String) (L : Locals) (v : Int),
      option_loop E prog (initial_locals E) pre = Except.ok L →
      stoi arg = some v → v ≤ 0 →
        main E W prog (pre ++ Opt.w arg :: post) operands
            = ⟨Status.EXIT_FAILURE, [Event.cout_write (usage E prog false)]⟩
        ∧ main E W prog (pre ++ Opt.k arg :: post) operands
            = ⟨Status.EXIT_FAILURE, [Event.cout_write (usage E prog false)]⟩)
    ∧ (0 < E.PRETTIFY_SEXPR_KICAD_DEFAULT_CONSECUTIVE_TOKEN_WRAP_THRESHOLD →
       0 < E.PRETTIFY_SEXPR_KICAD_DEFAULT_COMPACT_LIST_COLUMN_LIMIT →
       ∀ (opts : List Opt) (operands : List String),
        (∀ ch size wrap ret,
          Event.sexp_prettify_init ch size wrap ret ∈ (main E W prog opts operands).trace →
            0 < wrap)
        ∧ (∀ ptrs count limit ret,
          Event.sexp_prettify_compact_list_set ptrs count limit ret
              ∈ (main E W prog opts operands).trace →
            0 < limit)) := by
  refine ⟨?_, ?_⟩
  · intro pre post arg operands L v hpre hv hle
    constructor
    · simp [main, option_loop_append, hpre, option_loop, option_case, hv, hle]
    · simp [main, option_loop_append, hpre, option_loop, option_case, hv, hle]
  · intro hw hk opts operands
    refine ⟨?_, ?_⟩
    · intro ch size wrap ret hm
      obtain ⟨L, hp, hcfg⟩ := main_config_event E W prog opts operands _ hm rfl
      have hpos := (option_loop_pos E prog _ L opts hp).1 hw
      rcases mem_configure E L _ hcfg with ⟨r, h⟩ | ⟨_, r, h⟩ | ⟨_, r, h⟩
      · simp only [Event.sexp_prettify_init.injEq] at h
        rw [h.2.2.1]; exact hpos
      · simp at h
      · simp at h
    · intro ptrs count limit ret hm
      obtain ⟨L, hp, hcfg⟩ := main_config_event E W prog opts operands _ hm rfl
      have hpos := (option_loop_pos E prog _ L opts hp).2 hk
      rcases mem_configure E L _ hcfg with ⟨r, h⟩ | ⟨_, r, h⟩ | ⟨_, r, h⟩
      · simp at h
      · simp only [Event.sexp_prettify_compact_list_set.injEq] at h
        rw [h.2.2.1]; exact hpos
      · simp at h

/-- C3, amended, at `-l a -w 0 -h` and `-l a -k 0 -h`, at the least `int`, `-w
-2147483648` and `-k -2147483648`, and at the run `-w 3 -k 7 -l pts in.sexp`,
which reaches both calls. -/
theorem nonpositive_threshold_rejected_witness :
    (main spec_engine example_world "prog" ([Opt.l "a"] ++ Opt.w "0" :: [Opt.h]) ["-"]
        = ⟨Status.EXIT_FAILURE, [Event.cout_write (usage spec_engine "prog" false)]⟩
      ∧ main spec_engine example_world "prog" ([Opt.l "a"] ++ Opt.k "0" :: [Opt.h]) ["-"]
        = ⟨Status.EXIT_FAILURE, [Event.cout_write (usage spec_engine "prog" false)]⟩)
    ∧ (stoi "-2147483648" = some (-2147483648)
      ∧ main spec_engine example_world "prog" ([] ++ Opt.w "-2147483648" :: []) ["-"]
        = ⟨Status.EXIT_FAILURE, [Event.cout_write (usage spec_engine "prog" false)]⟩
      ∧ main spec_engine example_world "prog" ([] ++ Opt.k "-2147483648" :: []) ["-"]
        = ⟨Status.EXIT_FAILURE, [Event.cout_write (usage spec_engine "prog" false)]⟩)
    ∧ Event.sexp_prettify_init ' ' 2 3 true
        ∈ (main spec_engine example_world "prog" [Opt.w "3", Opt.k "7", Opt.l "pts"]
            ["in.sexp"]).trace
    ∧ (0 : Int) < 3
    ∧ Event.sexp_prettify_compact_list_set ["pts"] 1 7 true
        ∈ (main spec_engine example_world "prog" [Opt.w "3", Opt.k "7", Opt.l "pts"]
            ["in.sexp"]).trace
    ∧ (0 : Int) < 7 :=
  ⟨(nonpositive_threshold_rejected spec_engine example_world "prog").1
      [Opt.l "a"] [Opt.h] "0" ["-"]
      { initial_locals spec_engine with compact_list_prefixes := ["a"] } 0
      rfl (by decide) (by decide),
   ⟨by decide,
    (nonpositive_threshold_rejected spec_engine example_world "prog").1
      [] [] "-2147483648" ["-"] (initial_locals spec_engine) (-2147483648)
      rfl (by decide) (by decide)⟩,
   by decide,
   (((nonpositive_threshold_rejected spec_engine example_world "prog").2
      (by decide) (by decide) [Opt.w "3", Opt.k "7", Opt.l "pts"] ["in.sexp"]).1
      ' ' 2 3 true (by decide)),
   by decide,
   (((nonpositive_threshold_rejected spec_engine example_world "prog").2
      (by decide) (by decide) [Opt.w "3", Opt.k "7", Opt.l "pts"] ["in.sexp"]).2
      ["pts"] 1 7 true (by decide))⟩

/-- C3 as stated fails at `-w -2147483649` and at `-k -2147483649`: the
argument is an integer value `≤ 0` and the option is the first one reached, but
the value is below the least `int`, `std::stoi` throws `std::out_of_range`,
nothing in `main` catches it, and `main` does not return `EXIT_FAILURE`. -/
theorem threshold_below_int_range_not_rejected :
    stoi "-2147483649" = none
    ∧ option_loop spec_engine "prog" (initial_locals spec_engine) []
        = Except.ok (initial_locals spec_engine)
    ∧ main spec_engine example_world "prog" ([] ++ Opt.w "-2147483649" :: []) ["-"]
        = ⟨Status.uncaught_exception, []⟩
    ∧ main spec_engine example_world "prog" ([] ++ Opt.k "-2147483649" :: []) ["-"]
        = ⟨Status.uncaught_exception, []⟩
    ∧ (main spec_engine example_world "prog" ([] ++ Opt.w "-2147483649" :: [])
        ["-"]).status ≠ Status.EXIT_FAILURE
    ∧ (main spec_engine example_world "prog" ([] ++ Opt.k "-2147483649" :: [])
        ["-"]).status ≠ Status.EXIT_FAILURE := by
  refine ⟨by decide, rfl, by decide, by decide, by decide, by decide⟩

/-! ## Profiles -/

theorem exists_before_append (a t x : String) (h : ∃ b, t = b ++ x) :
    ∃ b, a ++ t = b ++ x := by
  obtain ⟨b, rfl⟩ := h
  exact ⟨a ++ b, (String.append_assoc a b x).symm⟩

/-- C5. The run `-p kicad -p bogus -` on a standard input holding `(a b)`: the
second `-p` names no profile, yet `main` returns `EXIT_SUCCESS` and feeds the
five characters to the engine, configured as for `-p kicad`.  The same `-p
bogus` as the first option makes `main` return `EXIT_FAILURE` after the message
and the short usage text. -/
theorem invalid_profile_after_valid_profile :
    main spec_engine example_world "prog" [Opt.p "kicad", Opt.p "bogus"] ["-"]
      = main spec_engine example_world "prog" [Opt.p "kicad"] ["-"]
    ∧ (main spec_engine example_world "prog" [Opt.p "kicad", Opt.p "bogus"] ["-"]).status
      = Status.EXIT_SUCCESS
    ∧ fed (main spec_engine example_world "prog" [Opt.p "kicad", Opt.p "bogus"] ["-"]).trace
      = ['(', 'a', ' ', 'b', ')']
    ∧ main spec_engine example_world "prog" [Opt.p "bogus"] ["-"]
      = ⟨Status.EXIT_FAILURE,
          [Event.cerr_write "Must be either \x27kicad\x27 or \x27kicad-compact\x27",
           Event.cout_write (usage spec_engine "prog" false)]⟩ := by
  exact ⟨rfl, rfl, rfl, rfl⟩

/-- C7. The command line of the help text's example, `-l pts -s font -s stroke
-s fill -s offset -s rotate -s scale - -`, and the command line `-p
kicad-compact - -` give the same run, whatever the engine and the input: the
option loop leaves the same two prefix lists (`pts`; the six shortform
prefixes), wrap threshold and column limit, both read standard input and both
write standard output.  The example is the last line of the full help text. -/
theorem help_example_is_kicad_compact {σ : Type} (E : Engine σ) (W : World) (prog : String) :
    main E W prog help_example_opts ["-", "-"]
      = main E W prog [Opt.p "kicad-compact"] ["-", "-"]
    ∧ (∃ L1 L2, option_loop E prog (initial_locals E) help_example_opts = Except.ok L1
        ∧ option_loop E prog (initial_locals E) [Opt.p "kicad-compact"] = Except.ok L2
        ∧ L1.compact_list_prefixes = ["pts"] ∧ L2.compact_list_prefixes = ["pts"]
        ∧ L1.shortform_prefixes = ["font", "stroke", "fill", "offset", "rotate", "scale"]
        ∧ L2.shortform_prefixes = ["font", "stroke", "fill", "offset", "rotate", "scale"]
        ∧ L1.wrap_threshold = L2.wrap_threshold
        ∧ L1.compact_list_prefixes_wrap_threshold = L2.compact_list_prefixes_wrap_threshold
        ∧ configure E L1 = configure E L2)
    ∧ open_src W "-" = ([], some (IStream.cin, W.cin))
    ∧ open_dst W (["-"].head?) = ([], some OStream.cout)
    ∧ (∃ before, usage E prog true = before ++ "    " ++ prog
        ++ " -l pts -s font -s stroke -s fill -s offset -s rotate -s scale - -\n") := by
  refine ⟨?_, ⟨_, _, rfl, rfl, rfl, rfl, rfl, rfl, rfl, rfl, rfl⟩, ?_, ?_, ?_⟩
  · rfl
  · rfl
  · rfl
  · simp only [usage, if_true, String.append_assoc]
    repeat first
      | exact ⟨"", (String.empty_append _).symm⟩
      | apply exists_before_append

/-! ## Order of the engine calls -/

/-- C2. On a run of `main` that hands at least one character to `sexp_prettify`,
the calls to the engine are, in order: `sexp_prettify_init`, then at most one
`sexp_prettify_compact_list_set`, then at most one `sexp_prettify_shortform_set`
(each returning `true`), then the `sexp_prettify` calls and nothing else; so
every configuration call comes before the first `sexp_prettify` call and none
after it. -/
theorem configuration_precedes_processing {σ : Type} (E : Engine σ) (W : World)
    (prog : String) (opts : List Opt) (operands : List String)
    (h : ∃ c, Event.sexp_prettify c ∈ (main E W prog opts operands).trace) :
    ∃ (ch : Char) (size wrap : Int) (cfg : List Event) (input : List Char),
      engine_calls (main E W prog opts operands).trace
          = Event.sexp_prettify_init ch size wrap true :: cfg
            ++ input.map Event.sexp_prettify
      ∧ input ≠ []
      ∧ (cfg = []
        ∨ (∃ ptrs count limit,
            cfg = [Event.sexp_prettify_compact_list_set ptrs count limit true])
        ∨ (∃ ptrs count, cfg = [Event.sexp_prettify_shortform_set ptrs count true])
        ∨ (∃ ptrs count limit ptrs2 count2,
            cfg = [Event.sexp_prettify_compact_list_set ptrs count limit true,
                   Event.sexp_prettify_shortform_set ptrs2 count2 true])) := by
  obtain ⟨c, hc⟩ := h
  rcases main_cases E W prog opts operands with
    ⟨r, hp, hm⟩ | ⟨L, hp, ⟨_, hm⟩ | ⟨src, rest, _, ⟨ev_src, hs, hm⟩
      | ⟨ev_src, s, input, hs, ⟨ev_dst, hd, hm⟩
        | ⟨ev_dst, d, hd, ⟨ev_cfg, hcfg, hm⟩ | ⟨ev_cfg, st, hcfg, hm⟩⟩⟩⟩⟩
  · rw [hm] at hc
    have := option_loop_error_trace E prog _ opts r hp _ hc
    simp [is_write] at this
  · rw [hm] at hc; simp at hc
  · rw [hm] at hc
    have := mem_open_src W src _ (by rw [hs]; exact hc)
    simp at this
  · rw [hm] at hc
    simp only [List.mem_append] at hc
    rcases hc with hc | hc
    · have := mem_open_src W src _ (by rw [hs]; exact hc)
      simp at this
    · have := mem_open_dst W rest.head? _ (by rw [hd]; exact hc)
      simp at this
  · rw [hm] at hc
    simp only [List.mem_append] at hc
    rcases hc with (hc | hc) | hc
    · have := mem_open_src W src _ (by rw [hs]; exact hc)
      simp at this
    · have := mem_open_dst W rest.head? _ (by rw [hd]; exact hc)
      simp at this
    · have := mem_configure E L _ (by rw [hcfg]; exact hc)
      simp at this
  · have hes := engine_calls_open_src W src
    have hed := engine_calls_open_dst W rest.head?
    have hec := engine_calls_configure E L
    rw [hs] at hes
    rw [hd] at hed
    rw [hcfg] at hec
    have hshape := (configure_some E L ev_cfg st hcfg).1
    have htrace : engine_calls (main E W prog opts operands).trace
        = ev_cfg ++ input.map Event.sexp_prettify := by
      rw [hm]
      simp only [engine_calls, List.filter_append] at hes hed hec ⊢
      rw [hes, hed, hec]
      have := process_engine_calls E s d st input
      simp only [engine_calls] at this
      rw [this]; simp
    have hinput : input ≠ [] := by
      rintro rfl
      rw [hm] at hc
      simp only [List.mem_append, process, List.not_mem_nil, or_false] at hc
      rcases hc with (hc | hc) | hc
      · have := mem_open_src W src _ (by rw [hs]; exact hc)
        simp at this
      · have := mem_open_dst W rest.head? _ (by rw [hd]; exact hc)
        simp at this
      · have := mem_configure E L _ (by rw [hcfg]; exact hc)
        simp at this
    refine ⟨E.PRETTIFY_SEXPR_KICAD_DEFAULT_INDENT_CHAR,
      E.PRETTIFY_SEXPR_KICAD_DEFAULT_INDENT_SIZE, L.wrap_threshold,
      (if L.compact_list_prefixes ≠ [] then
          [Event.sexp_prettify_compact_list_set L.compact_list_prefixes
            L.compact_list_prefixes.length L.compact_list_prefixes_wrap_threshold true]
        else [])
      ++ (if L.shortform_prefixes ≠ [] then
          [Event.sexp_prettify_shortform_set L.shortform_prefixes
            L.shortform_prefixes.length true]
        else []), input, ?_, hinput, ?_⟩
    · rw [htrace, hshape]
    · by_cases h1 : L.compact_list_prefixes = [] <;> by_cases h2 : L.shortform_prefixes = []
        <;> simp [h1, h2]

/-- C2, at `-p kicad-compact -` on a standard input holding `(a b)`. -/
theorem configuration_precedes_processing_witness :
    (∃ c, Event.sexp_prettify c
        ∈ (main spec_engine example_world "prog" [Opt.p "kicad-compact"] ["-"]).trace)
    ∧ ∃ (ch : Char) (size wrap : Int) (cfg : List Event) (input : List Char),
      engine_calls (main spec_engine example_world "prog" [Opt.p "kicad-compact"] ["-"]).trace
          = Event.sexp_prettify_init ch size wrap true :: cfg
            ++ input.map Event.sexp_prettify
      ∧ input ≠ []
      ∧ (cfg = []
        ∨ (∃ ptrs count limit,
            cfg = [Event.sexp_prettify_compact_list_set ptrs count limit true])
        ∨ (∃ ptrs count, cfg = [Event.sexp_prettify_shortform_set ptrs count true])
        ∨ (∃ ptrs count limit ptrs2 count2,
            cfg = [Event.sexp_prettify_compact_list_set ptrs count limit true,
                   Event.sexp_prettify_shortform_set ptrs2 count2 true])) :=
  ⟨⟨'(', by decide⟩,
   configuration_precedes_processing spec_engine example_world "prog"
     [Opt.p "kicad-compact"] ["-"] ⟨'(', by decide⟩⟩

/-! ## The processing loop -/

theorem zip_inits_flatMap_cons {α β : Type} (g : List α × α → List β) (c : α)
    (cs : List α) :
    (List.zip (c :: cs).inits (c :: cs)).flatMap g
      = g ([], c) ++ (List.zip cs.inits cs).flatMap (fun pc => g (c :: pc.1, pc.2)) := by
  rw [List.inits_cons, List.zip_cons_cons, List.flatMap_cons, List.zip_map_left,
    List.flatMap_map]
  rfl

/-- The processing loop in closed form: the character at each position is read,
handed to `sexp_prettify` on the state the characters before it have left, and
what that call hands to the sink is put on the destination stream. -/
theorem process_closed_form {σ : Type} (E : Engine σ) (src : IStream) (dst : OStream)
    (state : σ) (input : List Char) :
    process E src dst state input
      = (List.zip input.inits input).flatMap (fun pc =>
          Event.get src pc.2 :: Event.sexp_prettify pc.2
            :: (E.sexp_prettify (state_after E state pc.1) pc.2).2.map (Event.put dst)) := by
  induction input generalizing state with
  | nil => simp [process]
  | cons c cs ih =>
    rw [zip_inits_flatMap_cons]
    simp only [process, ih, state_after, List.foldl_cons, List.foldl_nil, putc_handler,
      List.cons_append]

theorem process_written {σ : Type} (E : Engine σ) (src : IStream) (dst : OStream)
    (state : σ) (input : List Char) :
    written dst (process E src dst state input)
      = (List.zip input.inits input).flatMap (fun pc =>
          (E.sexp_prettify (state_after E state pc.1) pc.2).2) := by
  induction input generalizing state with
  | nil => simp [process, written]
  | cons c cs ih =>
    rw [zip_inits_flatMap_cons]
    have h := ih (E.sexp_prettify state c).1
    simp only [written] at h
    simp only [process, written, List.filterMap_cons, List.filterMap_append, putc_handler,
      List.filterMap_map, state_after, List.foldl_cons, List.foldl_nil, h]
    congr 1
    induction (E.sexp_prettify state c).2 with
    | nil => rfl
    | cons x xs ihx => simp [List.filterMap_cons, ihx]

theorem written_eq_nil (dst : OStream) (tr : List Event)
    (h : ∀ ev ∈ tr, ∀ d ch, ev ≠ Event.put d ch) : written dst tr = [] := by
  simp only [written, List.filterMap_eq_nil_iff]
  intro ev hm
  cases ev <;> simp
  exact absurd rfl (h _ hm _ _)

theorem fed_eq_nil (tr : List Event) (h : ∀ ev ∈ tr, ∀ c, ev ≠ Event.sexp_prettify c) :
    fed tr = [] := by
  simp only [fed, List.filterMap_eq_nil_iff]
  intro ev hm
  cases ev <;> simp
  exact absurd rfl (h _ hm _)

theorem got_eq_nil (tr : List Event) (h : ∀ ev ∈ tr, ∀ s c, ev ≠ Event.get s c) :
    got tr = [] := by
  simp only [got, List.filterMap_eq_nil_iff]
  intro ev hm
  cases ev <;> simp
  exact absurd rfl (h _ hm _ _)

/-- The events before the processing loop: an opened file, a configuration
call. -/
theorem mem_setup {σ : Type} (E : Engine σ) (W : World) (L : Locals) (src : String)
    (dst : Option String) (ev : Event)
    (h : ev ∈ (open_src W src).1 ++ (open_dst W dst).1 ++ (configure E L).1) :
    (∃ b, ev = Event.open_ifstream src b) ∨ (∃ t, ev = Event.cerr_write t)
      ∨ (∃ path b, dst = some path ∧ path ≠ "-" ∧ ev = Event.open_ofstream path b)
      ∨ (is_config_call ev = true ∧ ev ∈ (configure E L).1) := by
  simp only [List.mem_append] at h
  rcases h with (h | h) | h
  · rcases mem_open_src W src ev h with h | h
    · exact Or.inl h
    · exact Or.inr (Or.inl h)
  · rcases mem_open_dst W dst ev h with h | h
    · exact Or.inr (Or.inr (Or.inl h))
    · exact Or.inr (Or.inl h)
  · refine Or.inr (Or.inr (Or.inr ⟨?_, h⟩))
    rcases mem_configure E L ev h with ⟨r, rfl⟩ | ⟨_, r, rfl⟩ | ⟨_, r, rfl⟩ <;> rfl

/-- A run of `main` that passes option parsing, stream opening and the three
asserts: its status, its trace in closed form, and what is fed, read and
written. -/
theorem main_run_through {σ : Type} (E : Engine σ) (W : World) (prog : String)
    (opts : List Opt) (L : Locals) (src : String) (rest : List String)
    (ev_src ev_dst ev_cfg : List Event) (s : IStream) (d : OStream) (input : List Char)
    (st : σ)
    (hp : option_loop E prog (initial_locals E) opts = Except.ok L)
    (hs : open_src W src = (ev_src, some (s, input)))
    (hd : open_dst W rest.head? = (ev_dst, some d))
    (hcfg : configure E L = (ev_cfg, some st)) :
    (main E W prog opts (src :: rest)).status = Status.EXIT_SUCCESS
    ∧ (main E W prog opts (src :: rest)).trace
        = ev_src ++ ev_dst ++ ev_cfg
          ++ (List.zip input.inits input).flatMap (fun pc =>
              Event.get s pc.2 :: Event.sexp_prettify pc.2
                :: (E.sexp_prettify (state_after E st pc.1) pc.2).2.map (Event.put d))
    ∧ fed (main E W prog opts (src :: rest)).trace = input
    ∧ got (main E W prog opts (src :: rest)).trace = input
    ∧ written d (main E W prog opts (src :: rest)).trace
        = (List.zip input.inits input).flatMap (fun pc =>
            (E.sexp_prettify (state_after E st pc.1) pc.2).2)
    ∧ (∀ d2 ch, Event.put d2 ch ∈ (main E W prog opts (src :: rest)).trace → d2 = d)
    ∧ (∀ ev ∈ (main E W prog opts (src :: rest)).trace, is_write ev = false) := by
  have hm : main E W prog opts (src :: rest)
      = ⟨Status.EXIT_SUCCESS, ev_src ++ ev_dst ++ ev_cfg ++ process E s d st input⟩ := by
    rw [main_of_parsed E W prog opts L src rest hp]
    simp only [hs, hd, hcfg]
  have hsetup : ∀ ev ∈ ev_src ++ ev_dst ++ ev_cfg,
      (∃ b, ev = Event.open_ifstream src b) ∨ (∃ t, ev = Event.cerr_write t)
      ∨ (∃ path b, rest.head? = some path ∧ path ≠ "-" ∧ ev = Event.open_ofstream path b)
      ∨ (is_config_call ev = true ∧ ev ∈ ev_cfg) := by
    intro ev hev
    have := mem_setup E W L src rest.head? ev
    rw [hs, hd, hcfg] at this
    exact this hev
  have hnowrite : ∀ ev ∈ ev_src ++ ev_dst ++ ev_cfg, ∀ t, ev ≠ Event.cerr_write t := by
    intro ev hev t ht
    subst ht
    simp only [List.mem_append] at hev
    rcases hev with (hev | hev) | hev
    · rcases open_src_cases W src with ⟨_, h⟩ | ⟨_, data, _, h⟩ | ⟨_, _, h⟩
        <;> rw [h] at hs <;> simp at hs
      · rw [hs.1] at hev; simp at hev
      · rw [← hs.1] at hev; simp at hev
    · rcases open_dst_cases W rest.head? with ⟨_, h⟩ | ⟨q, _, _, _, h⟩ | ⟨q, _, _, _, h⟩
        <;> rw [h] at hd <;> simp at hd
      · rw [hd.1] at hev; simp at hev
      · rw [← hd.1] at hev; simp at hev
    · have := mem_configure E L _ (by rw [hcfg]; exact hev)
      simp at this
  have hkinds : ∀ ev ∈ ev_src ++ ev_dst ++ ev_cfg,
      (∀ c, ev ≠ Event.sexp_prettify c) ∧ (∀ s2 c, ev ≠ Event.get s2 c)
        ∧ (∀ d2 ch, ev ≠ Event.put d2 ch) ∧ is_write ev = false := by
    intro ev hev
    rcases hsetup ev hev with ⟨b, rfl⟩ | ⟨t, rfl⟩ | ⟨q, b, _, _, rfl⟩ | ⟨hc, _⟩
    · simp [is_write]
    · exact absurd rfl (hnowrite _ hev t)
    · simp [is_write]
    · cases ev <;> simp [is_config_call, is_write] at hc ⊢
  rw [hm]
  refine ⟨rfl, ?_, ?_, ?_, ?_, ?_, ?_⟩
  · simp only [process_closed_form]
  · have h0 := fed_eq_nil _ (fun ev hev => (hkinds ev hev).1)
    have h1 := process_fed E s d st input
    simp only [fed, List.filterMap_append] at h0 h1 ⊢
    rw [h1, h0]; rfl
  · have h0 := got_eq_nil _ (fun ev hev => (hkinds ev hev).2.1)
    have h1 := process_got E s d st input
    simp only [got, List.filterMap_append] at h0 h1 ⊢
    rw [h1, h0]; rfl
  · have h0 := written_eq_nil d _ (fun ev hev => (hkinds ev hev).2.2.1)
    have h1 := process_written E s d st input
    simp only [written, List.filterMap_append] at h0 h1 ⊢
    rw [h1, h0]; rfl
  · intro d2 ch hmem
    rcases List.mem_append.mp hmem with hmem | hmem
    · exact absurd rfl ((hkinds _ hmem).2.2.1 d2 ch)
    · rcases mem_process E s d st input _ hmem with ⟨c, h⟩ | ⟨c, h⟩ | ⟨c, h⟩
      · simp at h
      · simp at h
      · simp only [Event.put.injEq] at h; exact h.1
  · intro ev hmem
    rcases List.mem_append.mp hmem with hmem | hmem
    · exact (hkinds _ hmem).2.2.2
    · rcases mem_process E s d st input _ hmem with ⟨c, rfl⟩ | ⟨c, rfl⟩ | ⟨c, rfl⟩ <;> rfl

/-- C1, amended. On a command line that passes option parsing and stream
opening and whose configuration calls all succeed (no `assert` fails), `main`
returns `EXIT_SUCCESS`, and after the setup its trace is exactly: for each input
character in order, one `get`, one `sexp_prettify` call on the state left by
the calls before it, and one `put` on the destination stream for each character
that call hands to the sink, in the order handed over.  So the characters fed
are the input, the characters the destination receives are what the engine
handed over, no other stream receives a character, and the driver writes no
text of its own. -/
theorem main_feeds_every_character {σ : Type} (E : Engine σ) (W : World) (prog : String)
    (opts : List Opt) (L : Locals) (src : String) (rest : List String)
    (ev_src ev_dst ev_cfg : List Event) (s : IStream) (d : OStream) (input : List Char)
    (st : σ)
    (hp : option_loop E prog (initial_locals E) opts = Except.ok L)
    (hs : open_src W src = (ev_src, some (s, input)))
    (hd : open_dst W rest.head? = (ev_dst, some d))
    (hcfg : configure E L = (ev_cfg, some st)) :
    (main E W prog opts (src :: rest)).status = Status.EXIT_SUCCESS
    ∧ (main E W prog opts (src :: rest)).trace
        = ev_src ++ ev_dst ++ ev_cfg
          ++ (List.zip input.inits input).flatMap (fun pc =>
              Event.get s pc.2 :: Event.sexp_prettify pc.2
                :: (E.sexp_prettify (state_after E st pc.1) pc.2).2.map (Event.put d))
    ∧ fed (main E W prog opts (src :: rest)).trace = input
    ∧ got (main E W prog opts (src :: rest)).trace = input
    ∧ written d (main E W prog opts (src :: rest)).trace
        = (List.zip input.inits input).flatMap (fun pc =>
            (E.sexp_prettify (state_after E st pc.1) pc.2).2)
    ∧ (∀ d2 ch, Event.put d2 ch ∈ (main E W prog opts (src :: rest)).trace → d2 = d)
    ∧ (∀ ev ∈ (main E W prog opts (src :: rest)).trace, is_write ev = false) :=
  main_run_through E W prog opts L src rest ev_src ev_dst ev_cfg s d input st hp hs hd hcfg

/-- C1, amended, at `-p kicad in.sexp out`: the five characters of `in.sexp` are
fed and the file `out` receives the five characters the engine hands over. -/
theorem main_feeds_every_character_witness :
    (main spec_engine example_world "prog" [Opt.p "kicad"] ["in.sexp", "out"]).status
        = Status.EXIT_SUCCESS
    ∧ fed (main spec_engine example_world "prog" [Opt.p "kicad"] ["in.sexp", "out"]).trace
        = ['(', 'p', 't', 's', ')']
    ∧ written (OStream.file "out")
        (main spec_engine example_world "prog" [Opt.p "kicad"] ["in.sexp", "out"]).trace
        = ['(', 'p', 't', 's', ')'] := by
  have h := main_feeds_every_character spec_engine example_world "prog" [Opt.p "kicad"]
    { initial_locals spec_engine with
      kicad_profile_active := styleProfile.STYLE_PROFILE_KICAD_STANDARD
      compact_list_prefixes := ["pts"] }
    "in.sexp" ["out"] [Event.open_ifstream "in.sexp" true] [Event.open_ofstream "out" true]
    [Event.sexp_prettify_init ' ' 2 5 true,
     Event.sexp_prettify_compact_list_set ["pts"] 1 40 true]
    (IStream.file "in.sexp") (OStream.file "out") ['(', 'p', 't', 's', ')']
    ⟨' ', 2, 5, ["pts"], 40, []⟩ rfl rfl rfl rfl
  exact ⟨h.1, h.2.2.1, h.2.2.2.2.1.trans rfl⟩

/-- C1 as stated fails at `-l "" -`: the option loop accepts the command line,
standard input (holding `(a b)`) and standard output are selected, but the
engine rejects the empty entry, the `assert` on
`sexp_prettify_compact_list_set` fails, and no character is fed. -/
theorem accepted_command_line_aborts :
    (∃ L, option_loop spec_engine "prog" (initial_locals spec_engine) [Opt.l ""]
        = Except.ok L)
    ∧ open_src example_world "-" = ([], some (IStream.cin, ['(', 'a', ' ', 'b', ')']))
    ∧ open_dst example_world ([] : List String).head? = ([], some OStream.cout)
    ∧ main spec_engine example_world "prog" [Opt.l ""] ["-"]
        = ⟨Status.assert_failed,
            [Event.sexp_prettify_init ' ' 2 5 true,
             Event.sexp_prettify_compact_list_set [""] 1 40 false]⟩
    ∧ (main spec_engine example_world "prog" [Opt.l ""] ["-"]).status
        ≠ Status.EXIT_SUCCESS
    ∧ fed (main spec_engine example_world "prog" [Opt.l ""] ["-"]).trace = [] :=
  ⟨⟨_, rfl⟩, rfl, rfl, rfl, by decide, rfl⟩

/-! ## The prefix lists the option loop leaves -/

/-- An option other than `-p` appends to the two lists what it carries. -/
theorem option_case_not_p {σ : Type} (E : Engine σ) (prog : String) (L L1 : Locals)
    (o : Opt) (h : option_case E prog L o = Except.ok L1) (hnp : is_p o = false) :
    L1.compact_list_prefixes = L.compact_list_prefixes ++ l_args [o]
    ∧ L1.shortform_prefixes = L.shortform_prefixes ++ s_args [o]
    ∧ L1.kicad_profile_active = L.kicad_profile_active := by
  cases o with
  | h => simp [option_case] at h
  | l a => simp [option_case] at h; subst h; simp [l_args, s_args]
  | s a => simp [option_case] at h; subst h; simp [l_args, s_args]
  | w a =>
    simp only [option_case] at h
    cases hs : stoi a with
    | none => simp [hs] at h
    | some v =>
      simp only [hs] at h
      split at h
      · simp at h
      · simp at h; subst h; simp [l_args, s_args]
  | k a =>
    simp only [option_case] at h
    cases hs : stoi a with
    | none => simp [hs] at h
    | some v =>
      simp only [hs] at h
      split at h
      · simp at h
      · simp at h; subst h; simp [l_args, s_args]
  | p a => simp [is_p] at hnp
  | unknown => simp [option_case] at h

theorem option_loop_not_p {σ : Type} (E : Engine σ) (prog : String) (L L1 : Locals)
    (opts : List Opt) (h : option_loop E prog L opts = Except.ok L1)
    (hnp : ∀ o ∈ opts, is_p o = false) :
    L1.compact_list_prefixes = L.compact_list_prefixes ++ l_args opts
    ∧ L1.shortform_prefixes = L.shortform_prefixes ++ s_args opts
    ∧ L1.kicad_profile_active = L.kicad_profile_active := by
  induction opts generalizing L with
  | nil => simp [option_loop] at h; subst h; simp [l_args, s_args]
  | cons o os ih =>
    simp only [option_loop] at h
    cases hc : option_case E prog L o with
    | error r1 => simp [hc] at h
    | ok L2 =>
      simp only [hc] at h
      have h2 := option_case_not_p E prog L L2 o hc (hnp o (List.mem_cons_self _ _))
      have h3 := ih L2 h (fun x hx => hnp x (List.mem_cons_of_mem _ hx))
      have hl : l_args (o :: os) = l_args [o] ++ l_args os := by
        simp only [l_args, ← List.filterMap_append]; rfl
      have hs : s_args (o :: os) = s_args [o] ++ s_args os := by
        simp only [s_args, ← List.filterMap_append]; rfl
      rw [h3.1, h3.2.1, h3.2.2, h2.1, h2.2.1, h2.2.2, hl, hs]
      simp

/-- A `-p` that goes through replaces both lists by those of the profile now in
`kicad_profile_active`, which is a profile. -/
theorem option_case_p {σ : Type} (E : Engine σ) (prog : String) (L L1 : Locals)
    (a : String) (h : option_case E prog L (Opt.p a) = Except.ok L1) :
    L1.kicad_profile_active = profile_after L.kicad_profile_active a
    ∧ L1.kicad_profile_active ≠ styleProfile.STYLE_PROFILE_NONE
    ∧ L1.compact_list_prefixes = ["pts"]
    ∧ L1.shortform_prefixes
        = (if L1.kicad_profile_active = styleProfile.STYLE_PROFILE_KICAD_COMPACT then
            ["font", "stroke", "fill", "offset", "rotate", "scale"] else [])
    ∧ L1.wrap_threshold = L.wrap_threshold
    ∧ L1.compact_list_prefixes_wrap_threshold = L.compact_list_prefixes_wrap_threshold := by
  simp only [option_case] at h
  split at h
  · simp at h
  · rename_i hne
    simp only [Except.ok.injEq] at h
    subst h
    refine ⟨rfl, hne, ?_, ?_, rfl, rfl⟩
    · cases hpa : profile_after L.kicad_profile_active a with
      | STYLE_PROFILE_NONE => exact absurd hpa hne
      | STYLE_PROFILE_KICAD_STANDARD => rfl
      | STYLE_PROFILE_KICAD_COMPACT => rfl
    · cases hpa : profile_after L.kicad_profile_active a with
      | STYLE_PROFILE_NONE => exact absurd hpa hne
      | STYLE_PROFILE_KICAD_STANDARD => rfl
      | STYLE_PROFILE_KICAD_COMPACT => rfl

/-- The option loop over `pre ++ -p a :: post` with no `-p` in `post`. -/
theorem option_loop_last_p {σ : Type} (E : Engine σ) (prog : String) (L0 L : Locals)
    (pre post : List Opt) (a : String)
    (h : option_loop E prog L0 (pre ++ Opt.p a :: post) = Except.ok L)
    (hnp : ∀ o ∈ post, is_p o = false) :
    ∃ L1, option_loop E prog L0 pre = Except.ok L1
      ∧ L.kicad_profile_active = profile_after L1.kicad_profile_active a
      ∧ L.kicad_profile_active ≠ styleProfile.STYLE_PROFILE_NONE
      ∧ L.compact_list_prefixes = "pts" :: l_args post
      ∧ L.shortform_prefixes
        = (if L.kicad_profile_active = styleProfile.STYLE_PROFILE_KICAD_COMPACT then
            ["font", "stroke", "fill", "offset", "rotate", "scale"] else [])
          ++ s_args post := by
  rw [option_loop_append] at h
  cases h1 : option_loop E prog L0 pre with
  | error r => simp [h1] at h
  | ok L1 =>
    refine ⟨L1, rfl, ?_⟩
    simp only [h1, option_loop] at h
    cases h2 : option_case E prog L1 (Opt.p a) with
    | error r => simp [h2] at h
    | ok L2 =>
      simp only [h2] at h
      have hp := option_case_p E prog L1 L2 a h2
      have hr := option_loop_not_p E prog L2 L post h hnp
      rw [hr.2.2, hr.1, hr.2.1, hp.2.2.1, hp.2.2.2.1]
      exact ⟨hp.1, hp.2.1, rfl, rfl⟩

/-- A profile in `kicad_profile_active` after the option loop was put there by
a `-p` of the sequence whose argument is one of the two profile names, and no
`-p` after that one has such an argument. -/
theorem profile_named {σ : Type} (E : Engine σ) (prog : String) (L0 : Locals)
    (h0 : L0.kicad_profile_active = styleProfile.STYLE_PROFILE_NONE)
    (pre : List Opt) (L1 : Locals)
    (h : option_loop E prog L0 pre = Except.ok L1)
    (h1 : L1.kicad_profile_active ≠ styleProfile.STYLE_PROFILE_NONE) :
    ∃ (pre1 : List Opt) (b : String) (mid : List Opt), pre = pre1 ++ Opt.p b :: mid
      ∧ (∀ c, Opt.p c ∈ mid → c ≠ "kicad" ∧ c ≠ "kicad-compact")
      ∧ ((b = "kicad"
            ∧ L1.kicad_profile_active = styleProfile.STYLE_PROFILE_KICAD_STANDARD)
        ∨ (b = "kicad-compact"
            ∧ L1.kicad_profile_active = styleProfile.STYLE_PROFILE_KICAD_COMPACT)) := by
  induction pre using List.reverseRecOn generalizing L1 with
  | nil =>
    simp only [option_loop, Except.ok.injEq] at h
    subst h
    exact absurd h0 h1
  | append_singleton l o ih =>
    rw [option_loop_append] at h
    cases hl : option_loop E prog L0 l with
    | error r => simp [hl] at h
    | ok Lm =>
      simp only [hl, option_loop] at h
      cases hc : option_case E prog Lm o with
      | error r => simp [hc] at h
      | ok L2 =>
        simp only [hc, Except.ok.injEq] at h
        subst h
        have extend : Lm.kicad_profile_active = L2.kicad_profile_active →
            (∀ c, o = Opt.p c → c ≠ "kicad" ∧ c ≠ "kicad-compact") →
            ∃ (pre1 : List Opt) (b : String) (mid : List Opt),
              l ++ [o] = pre1 ++ Opt.p b :: mid
              ∧ (∀ c, Opt.p c ∈ mid → c ≠ "kicad" ∧ c ≠ "kicad-compact")
              ∧ ((b = "kicad"
                    ∧ L2.kicad_profile_active = styleProfile.STYLE_PROFILE_KICAD_STANDARD)
                ∨ (b = "kicad-compact"
                    ∧ L2.kicad_profile_active
                      = styleProfile.STYLE_PROFILE_KICAD_COMPACT)) := by
          intro hsame ho
          obtain ⟨pre1, b, mid, hdec, hmid, hb⟩ := ih Lm hl (by rw [hsame]; exact h1)
          refine ⟨pre1, b, mid ++ [o], by rw [hdec]; simp, ?_, ?_⟩
          · intro c hcm
            rcases List.mem_append.mp hcm with hcm | hcm
            · exact hmid c hcm
            · exact ho c (List.mem_singleton.mp hcm).symm
          · rw [← hsame]; exact hb
        cases o with
        | p c =>
          have hp := (option_case_p E prog Lm L2 c hc).1
          by_cases hk : c = "kicad"
          · refine ⟨l, c, [], rfl, by simp, Or.inl ⟨hk, ?_⟩⟩
            rw [hp, hk]; simp [profile_after]
          · by_cases hkc : c = "kicad-compact"
            · refine ⟨l, c, [], rfl, by simp, Or.inr ⟨hkc, ?_⟩⟩
              rw [hp, hkc]; simp [profile_after]
            · apply extend
              · rw [hp]; simp [profile_after, hk, hkc]
              · intro c2 hc2
                simp only [Opt.p.injEq] at hc2
                subst hc2
                exact ⟨hk, hkc⟩
        | h => exact extend (option_case_not_p E prog Lm L2 _ hc rfl).2.2.symm (by simp)
        | l x => exact extend (option_case_not_p E prog Lm L2 _ hc rfl).2.2.symm (by simp)
        | s x => exact extend (option_case_not_p E prog Lm L2 _ hc rfl).2.2.symm (by simp)
        | w x => exact extend (option_case_not_p E prog Lm L2 _ hc rfl).2.2.symm (by simp)
        | k x => exact extend (option_case_not_p E prog Lm L2 _ hc rfl).2.2.symm (by simp)
        | unknown =>
          exact extend (option_case_not_p E prog Lm L2 _ hc rfl).2.2.symm (by simp)

/-- C9. For an option sequence the loop goes through: with no `-p`, the compact
list is the `-l` arguments in order and the shortform list the `-s` arguments
in order; with a last `-p`, what came before it is gone and the compact list is
`pts` followed by the `-l` arguments after it; the shortform list is the `-s`
arguments after it, preceded by the six KiCad shortform prefixes exactly when
the profile in force at that `-p` is `kicad-compact`.  The profile in force is
spelled out on the arguments: it is the one the last `-p` names (`kicad`: no
shortform prefix; `kicad-compact`: the six), and when that argument is neither
name it is the one named by the latest earlier `-p` whose argument is a name
(there is one, or the loop would have stopped).  Order matters: `-l a -s x -p
kicad` and `-p kicad -l a -s x` leave different lists, and so do `-p kicad -p
kicad-compact` and `-p kicad-compact -p kicad`. -/
theorem final_prefix_lists {σ : Type} (E : Engine σ) (prog : String) (opts : List Opt)
    (L : Locals) (hp : option_loop E prog (initial_locals E) opts = Except.ok L) :
    ((∀ o ∈ opts, is_p o = false) →
        L.compact_list_prefixes = l_args opts ∧ L.shortform_prefixes = s_args opts)
    ∧ (∀ (pre post : List Opt) (a : String), opts = pre ++ Opt.p a :: post →
        (∀ o ∈ post, is_p o = false) →
        L.compact_list_prefixes = "pts" :: l_args post
        ∧ (a = "kicad" →
            L.kicad_profile_active = styleProfile.STYLE_PROFILE_KICAD_STANDARD
            ∧ L.shortform_prefixes = s_args post)
        ∧ (a = "kicad-compact" →
            L.kicad_profile_active = styleProfile.STYLE_PROFILE_KICAD_COMPACT
            ∧ L.shortform_prefixes
              = ["font", "stroke", "fill", "offset", "rotate", "scale"] ++ s_args post)
        ∧ (a ≠ "kicad" → a ≠ "kicad-compact" →
            ∃ (pre1 : List Opt) (b : String) (mid : List Opt),
              pre = pre1 ++ Opt.p b :: mid
              ∧ (∀ c, Opt.p c ∈ mid → c ≠ "kicad" ∧ c ≠ "kicad-compact")
              ∧ ((b = "kicad"
                    ∧ L.kicad_profile_active = styleProfile.STYLE_PROFILE_KICAD_STANDARD
                    ∧ L.shortform_prefixes = s_args post)
                ∨ (b = "kicad-compact"
                    ∧ L.kicad_profile_active = styleProfile.STYLE_PROFILE_KICAD_COMPACT
                    ∧ L.shortform_prefixes
                      = ["font", "stroke", "fill", "offset", "rotate", "scale"]
                        ++ s_args post))))
    ∧ (option_loop E prog (initial_locals E) [Opt.l "a", Opt.s "x", Opt.p "kicad"]
          = Except.ok { initial_locals E with
              compact_list_prefixes := ["pts"]
              shortform_prefixes := []
              kicad_profile_active := styleProfile.STYLE_PROFILE_KICAD_STANDARD }
        ∧ option_loop E prog (initial_locals E) [Opt.p "kicad", Opt.l "a", Opt.s "x"]
          = Except.ok { initial_locals E with
              compact_list_prefixes := ["pts", "a"]
              shortform_prefixes := ["x"]
              kicad_profile_active := styleProfile.STYLE_PROFILE_KICAD_STANDARD }
        ∧ option_loop E prog (initial_locals E) [Opt.p "kicad", Opt.p "kicad-compact"]
          = Except.ok { initial_locals E with
              compact_list_prefixes := ["pts"]
              shortform_prefixes := ["font", "stroke", "fill", "offset", "rotate", "scale"]
              kicad_profile_active := styleProfile.STYLE_PROFILE_KICAD_COMPACT }
        ∧ option_loop E prog (initial_locals E) [Opt.p "kicad-compact", Opt.p "kicad"]
          = Except.ok { initial_locals E with
              compact_list_prefixes := ["pts"]
              shortform_prefixes := []
              kicad_profile_active := styleProfile.STYLE_PROFILE_KICAD_STANDARD }) := by
  refine ⟨?_, ?_, ⟨rfl, rfl, rfl, rfl⟩⟩
  · intro hnp
    have h := option_loop_not_p E prog _ L opts hp hnp
    simp only [initial_locals, List.nil_append] at h
    exact ⟨h.1, h.2.1⟩
  · intro pre post a hopts hnp
    subst hopts
    obtain ⟨L1, h1, h2, h3, h4, h5⟩ := option_loop_last_p E prog _ L pre post a hp hnp
    refine ⟨h4, ?_, ?_, ?_⟩
    · intro ha
      have hprof : L.kicad_profile_active = styleProfile.STYLE_PROFILE_KICAD_STANDARD := by
        rw [h2, ha]; simp [profile_after]
      refine ⟨hprof, ?_⟩
      rw [h5, hprof]; simp
    · intro ha
      have hprof : L.kicad_profile_active = styleProfile.STYLE_PROFILE_KICAD_COMPACT := by
        rw [h2, ha]; simp [profile_after]
      refine ⟨hprof, ?_⟩
      rw [h5, hprof]; simp
    · intro hk hkc
      have hsame : L.kicad_profile_active = L1.kicad_profile_active := by
        rw [h2]; simp [profile_after, hk, hkc]
      obtain ⟨pre1, b, mid, hdec, hmid, hb⟩ :=
        profile_named E prog (initial_locals E) rfl pre L1 h1 (by rw [← hsame]; exact h3)
      refine ⟨pre1, b, mid, hdec, hmid, ?_⟩
      rcases hb with ⟨hb, hprof⟩ | ⟨hb, hprof⟩
      · left
        rw [← hsame] at hprof
        refine ⟨hb, hprof, ?_⟩
        rw [h5, hprof]; simp
      · right
        rw [← hsame] at hprof
        refine ⟨hb, hprof, ?_⟩
        rw [h5, hprof]; simp

/-- C9, at `-s x -l a -p kicad-compact -l b -s y`, at `-p kicad-compact -s x -p
kicad -s y` and at `-p kicad-compact -p bogus -s y`, where `kicad-compact`
stays in force. -/
theorem final_prefix_lists_witness :
    (option_loop spec_engine "prog" (initial_locals spec_engine)
        [Opt.s "x", Opt.l "a", Opt.p "kicad-compact", Opt.l "b", Opt.s "y"]
      = Except.ok ⟨5, ["pts", "b"], 40,
          ["font", "stroke", "fill", "offset", "rotate", "scale", "y"],
          styleProfile.STYLE_PROFILE_KICAD_COMPACT⟩
      ∧ ["pts", "b"] = "pts" :: l_args [Opt.l "b", Opt.s "y"]
      ∧ ["font", "stroke", "fill", "offset", "rotate", "scale", "y"]
          = ["font", "stroke", "fill", "offset", "rotate", "scale"]
            ++ s_args [Opt.l "b", Opt.s "y"])
    ∧ (option_loop spec_engine "prog" (initial_locals spec_engine)
        [Opt.p "kicad-compact", Opt.s "x", Opt.p "kicad", Opt.s "y"]
      = Except.ok ⟨5, ["pts"], 40, ["y"], styleProfile.STYLE_PROFILE_KICAD_STANDARD⟩
      ∧ ["y"] = s_args [Opt.s "y"])
    ∧ (option_loop spec_engine "prog" (initial_locals spec_engine)
        [Opt.p "kicad-compact", Opt.p "bogus", Opt.s "y"]
      = Except.ok ⟨5, ["pts"], 40,
          ["font", "stroke", "fill", "offset", "rotate", "scale", "y"],
          styleProfile.STYLE_PROFILE_KICAD_COMPACT⟩
      ∧ ∃ (pre1 : List Opt) (b : String) (mid : List Opt),
          [Opt.p "kicad-compact"] = pre1 ++ Opt.p b :: mid
          ∧ (∀ c, Opt.p c ∈ mid → c ≠ "kicad" ∧ c ≠ "kicad-compact")
          ∧ ((b = "kicad"
                ∧ styleProfile.STYLE_PROFILE_KICAD_COMPACT
                  = styleProfile.STYLE_PROFILE_KICAD_STANDARD
                ∧ ["font", "stroke", "fill", "offset", "rotate", "scale", "y"]
                  = s_args [Opt.s "y"])
            ∨ (b = "kicad-compact"
                ∧ styleProfile.STYLE_PROFILE_KICAD_COMPACT
                  = styleProfile.STYLE_PROFILE_KICAD_COMPACT
                ∧ ["font", "stroke", "fill", "offset", "rotate", "scale", "y"]
                  = ["font", "stroke", "fill", "offset", "rotate", "scale"]
                    ++ s_args [Opt.s "y"]))) := by
  have h1 := (final_prefix_lists spec_engine "prog"
      [Opt.s "x", Opt.l "a", Opt.p "kicad-compact", Opt.l "b", Opt.s "y"]
      ⟨5, ["pts", "b"], 40, ["font", "stroke", "fill", "offset", "rotate", "scale", "y"],
        styleProfile.STYLE_PROFILE_KICAD_COMPACT⟩ rfl).2.1
      [Opt.s "x", Opt.l "a"] [Opt.l "b", Opt.s "y"] "kicad-compact" rfl (by decide)
  have h2 := (final_prefix_lists spec_engine "prog"
      [Opt.p "kicad-compact", Opt.s "x", Opt.p "kicad", Opt.s "y"]
      ⟨5, ["pts"], 40, ["y"], styleProfile.STYLE_PROFILE_KICAD_STANDARD⟩ rfl).2.1
      [Opt.p "kicad-compact", Opt.s "x"] [Opt.s "y"] "kicad" rfl (by decide)
  have h3 := (final_prefix_lists spec_engine "prog"
      [Opt.p "kicad-compact", Opt.p "bogus", Opt.s "y"]
      ⟨5, ["pts"], 40, ["font", "stroke", "fill", "offset", "rotate", "scale", "y"],
        styleProfile.STYLE_PROFILE_KICAD_COMPACT⟩ rfl).2.1
      [Opt.p "kicad-compact"] [Opt.s "y"] "bogus" rfl (by decide)
  exact ⟨⟨rfl, h1.1, (h1.2.2.1 rfl).2⟩, ⟨rfl, (h2.2.1 rfl).2⟩,
    ⟨rfl, h3.2.2.2 (by decide) (by decide)⟩⟩

/-! ## What the configuration block is handed -/

theorem config_calls_process {σ : Type} (E : Engine σ) (s : IStream) (d : OStream) (st : σ)
    (input : List Char) : (process E s d st input).filter is_config_call = [] := by
  simp only [List.filter_eq_nil_iff]
  intro ev hm
  rcases mem_process E s d st input ev hm with ⟨c, rfl⟩ | ⟨c, rfl⟩ | ⟨c, rfl⟩
    <;> simp [is_config_call]

theorem config_calls_open_src (W : World) (src : String) :
    (open_src W src).1.filter is_config_call = [] := by
  simp only [List.filter_eq_nil_iff]
  intro ev hm
  rcases mem_open_src W src ev hm with ⟨b, rfl⟩ | ⟨t, rfl⟩ <;> simp [is_config_call]

theorem config_calls_open_dst (W : World) (dst : Option String) :
    (open_dst W dst).1.filter is_config_call = [] := by
  simp only [List.filter_eq_nil_iff]
  intro ev hm
  rcases mem_open_dst W dst ev hm with ⟨q, b, _, _, rfl⟩ | ⟨t, rfl⟩ <;> simp [is_config_call]

theorem config_calls_configure {σ : Type} (E : Engine σ) (L : Locals) :
    (configure E L).1.filter is_config_call = (configure E L).1 := by
  simp only [List.filter_eq_self]
  intro ev hm
  rcases mem_configure E L ev hm with ⟨r, rfl⟩ | ⟨_, r, rfl⟩ | ⟨_, r, rfl⟩
    <;> simp [is_config_call]

/-- A run with a `SOURCE` that ends in `EXIT_SUCCESS` went through the whole of
`main`: its configuration calls are those of the configuration block, none of
whose asserts failed. -/
theorem main_success {σ : Type} (E : Engine σ) (W : World) (prog : String)
    (opts : List Opt) (L : Locals) (src : String) (rest : List String)
    (hp : option_loop E prog (initial_locals E) opts = Except.ok L)
    (hst : (main E W prog opts (src :: rest)).status = Status.EXIT_SUCCESS) :
    ∃ ev_src s input ev_dst d ev_cfg st,
      open_src W src = (ev_src, some (s, input))
      ∧ open_dst W rest.head? = (ev_dst, some d)
      ∧ configure E L = (ev_cfg, some st)
      ∧ main E W prog opts (src :: rest)
          = ⟨Status.EXIT_SUCCESS, ev_src ++ ev_dst ++ ev_cfg ++ process E s d st input⟩
      ∧ (main E W prog opts (src :: rest)).trace.filter is_config_call = ev_cfg := by
  rw [main_of_parsed E W prog opts L src rest hp] at hst ⊢
  have h1 := config_calls_open_src W src
  have h2 := config_calls_open_dst W rest.head?
  have h3 := config_calls_configure E L
  rcases hs : open_src W src with ⟨ev_src, _ | ⟨s, inp⟩⟩
  · simp [hs] at hst
  · rcases hd : open_dst W rest.head? with ⟨ev_dst, _ | d⟩
    · simp [hs, hd] at hst
    · rcases hcfg : configure E L with ⟨ev_cfg, _ | st⟩
      · simp [hs, hd, hcfg] at hst
      · refine ⟨ev_src, s, inp, ev_dst, d, ev_cfg, st, rfl, rfl, rfl, rfl, ?_⟩
        rw [hs] at h1
        rw [hd] at h2
        rw [hcfg] at h3
        simp only [List.filter_append] at h1 h2 h3 ⊢
        rw [h1, h2, h3, config_calls_process]
        simp

theorem no_list_affecting (post : List Opt) (h : ∀ o ∈ post, list_affecting o = false) :
    l_args post = [] ∧ s_args post = [] ∧ ∀ o ∈ post, is_p o = false := by
  refine ⟨?_, ?_, ?_⟩
  · simp only [l_args, List.filterMap_eq_nil_iff]
    intro o ho
    have := h o ho
    cases o <;> simp [list_affecting] at this ⊢
  · simp only [s_args, List.filterMap_eq_nil_iff]
    intro o ho
    have := h o ho
    cases o <;> simp [list_affecting] at this ⊢
  · intro o ho
    have := h o ho
    cases o <;> simp [list_affecting, is_p] at this ⊢

/-- C4. On a command line the option loop goes through whose last `-p` is `-p
kicad`, with no `-l`, `-s` or `-p` after it, the compact list is exactly `pts`
and the shortform list is empty: no run calls `sexp_prettify_shortform_set`,
every `sexp_prettify_compact_list_set` call gets `pts` with count 1, and a run
that goes through `main` makes exactly the configuration calls
`sexp_prettify_init`, `sexp_prettify_compact_list_set(pts)`.  With `-p
kicad-compact` instead, the compact list is exactly `pts`, the shortform list is
exactly `font, stroke, fill, offset, rotate, scale`, and a run that goes through
`main` makes exactly the calls `sexp_prettify_init`,
`sexp_prettify_compact_list_set(pts)`, `sexp_prettify_shortform_set` with these
six in this order.  What precedes the `-p` plays no part, so this covers a `-p`
that is the only list-affecting option. -/
theorem profile_prefix_lists {σ : Type} (E : Engine σ) (W : World) (prog : String)
    (opts pre post : List Opt) (L : Locals)
    (hp : option_loop E prog (initial_locals E) opts = Except.ok L)
    (hpost : ∀ o ∈ post, list_affecting o = false) :
    (opts = pre ++ Opt.p "kicad" :: post →
      L.compact_list_prefixes = ["pts"] ∧ L.shortform_prefixes = []
      ∧ ∀ operands : List String,
        (∀ ptrs count ret, Event.sexp_prettify_shortform_set ptrs count ret
            ∉ (main E W prog opts operands).trace)
        ∧ (∀ ptrs count limit ret, Event.sexp_prettify_compact_list_set ptrs count limit ret
            ∈ (main E W prog opts operands).trace → ptrs = ["pts"] ∧ count = 1)
        ∧ (operands ≠ [] → (main E W prog opts operands).status = Status.EXIT_SUCCESS →
            (main E W prog opts operands).trace.filter is_config_call
              = [Event.sexp_prettify_init E.PRETTIFY_SEXPR_KICAD_DEFAULT_INDENT_CHAR
                   E.PRETTIFY_SEXPR_KICAD_DEFAULT_INDENT_SIZE L.wrap_threshold true,
                 Event.sexp_prettify_compact_list_set ["pts"] 1
                   L.compact_list_prefixes_wrap_threshold true]))
    ∧ (opts = pre ++ Opt.p "kicad-compact" :: post →
      L.compact_list_prefixes = ["pts"]
      ∧ L.shortform_prefixes = ["font", "stroke", "fill", "offset", "rotate", "scale"]
      ∧ ∀ operands : List String,
        (∀ ptrs count ret, Event.sexp_prettify_shortform_set ptrs count ret
            ∈ (main E W prog opts operands).trace →
            ptrs = ["font", "stroke", "fill", "offset", "rotate", "scale"] ∧ count = 6)
        ∧ (∀ ptrs count limit ret, Event.sexp_prettify_compact_list_set ptrs count limit ret
            ∈ (main E W prog opts operands).trace → ptrs = ["pts"] ∧ count = 1)
        ∧ (operands ≠ [] → (main E W prog opts operands).status = Status.EXIT_SUCCESS →
            (main E W prog opts operands).trace.filter is_config_call
              = [Event.sexp_prettify_init E.PRETTIFY_SEXPR_KICAD_DEFAULT_INDENT_CHAR
                   E.PRETTIFY_SEXPR_KICAD_DEFAULT_INDENT_SIZE L.wrap_threshold true,
                 Event.sexp_prettify_compact_list_set ["pts"] 1
                   L.compact_list_prefixes_wrap_threshold true,
                 Event.sexp_prettify_shortform_set
                   ["font", "stroke", "fill", "offset", "rotate", "scale"] 6 true])) := by
  obtain ⟨hl, hs, hnp⟩ := no_list_affecting post hpost
  have hevents : ∀ (operands : List String) (ev : Event),
      ev ∈ (main E W prog opts operands).trace → is_config_call ev = true →
        ev ∈ (configure E L).1 := by
    intro operands ev hm hc
    obtain ⟨L2, hp2, h2⟩ := main_config_event E W prog opts operands ev hm hc
    rw [hp] at hp2
    cases hp2
    exact h2
  have hsucc : ∀ operands : List String, operands ≠ [] →
      (main E W prog opts operands).status = Status.EXIT_SUCCESS →
      ∃ ev_cfg st, configure E L = (ev_cfg, some st)
        ∧ (main E W prog opts operands).trace.filter is_config_call = ev_cfg := by
    intro operands hne hst
    cases operands with
    | nil => exact absurd rfl hne
    | cons src rest =>
      obtain ⟨_, _, _, _, _, ev_cfg, st, _, _, h3, _, h5⟩ :=
        main_success E W prog opts L src rest hp hst
      exact ⟨ev_cfg, st, h3, h5⟩
  refine ⟨?_, ?_⟩
  · intro hopts
    subst hopts
    obtain ⟨L1, _, hprof, _, hcl, hsl⟩ := option_loop_last_p E prog _ L pre post _ hp hnp
    have hprof2 : L.kicad_profile_active = styleProfile.STYLE_PROFILE_KICAD_STANDARD := by
      rw [hprof]; simp [profile_after]
    rw [hl] at hcl
    rw [hs, hprof2] at hsl
    simp only [reduceCtorEq, if_false, List.append_nil] at hsl
    refine ⟨hcl, hsl, fun operands => ⟨?_, ?_, ?_⟩⟩
    · intro ptrs count ret hm
      rcases mem_configure E L _ (hevents operands _ hm rfl) with
        ⟨r, h⟩ | ⟨_, r, h⟩ | ⟨hne, r, h⟩
      · simp at h
      · simp at h
      · exact hne hsl
    · intro ptrs count limit ret hm
      rcases mem_configure E L _ (hevents operands _ hm rfl) with
        ⟨r, h⟩ | ⟨_, r, h⟩ | ⟨hne, r, h⟩
      · simp at h
      · simp only [Event.sexp_prettify_compact_list_set.injEq, hcl] at h
        exact ⟨h.1, h.2.1⟩
      · simp at h
    · intro hne hst
      obtain ⟨ev_cfg, st, hcfg, hfil⟩ := hsucc operands hne hst
      rw [hfil, (configure_some E L ev_cfg st hcfg).1, hcl, hsl]
      simp
  · intro hopts
    subst hopts
    obtain ⟨L1, _, hprof, _, hcl, hsl⟩ := option_loop_last_p E prog _ L pre post _ hp hnp
    have hprof2 : L.kicad_profile_active = styleProfile.STYLE_PROFILE_KICAD_COMPACT := by
      rw [hprof]; simp [profile_after]
    rw [hl] at hcl
    rw [hs, hprof2] at hsl
    simp only [if_true, List.append_nil] at hsl
    refine ⟨hcl, hsl, fun operands => ⟨?_, ?_, ?_⟩⟩
    · intro ptrs count ret hm
      rcases mem_configure E L _ (hevents operands _ hm rfl) with
        ⟨r, h⟩ | ⟨_, r, h⟩ | ⟨hne, r, h⟩
      · simp at h
      · simp at h
      · simp only [Event.sexp_prettify_shortform_set.injEq, hsl] at h
        exact ⟨h.1, h.2.1⟩
    · intro ptrs count limit ret hm
      rcases mem_configure E L _ (hevents operands _ hm rfl) with
        ⟨r, h⟩ | ⟨_, r, h⟩ | ⟨hne, r, h⟩
      · simp at h
      · simp only [Event.sexp_prettify_compact_list_set.injEq, hcl] at h
        exact ⟨h.1, h.2.1⟩
      · simp at h
    · intro hne hst
      obtain ⟨ev_cfg, st, hcfg, hfil⟩ := hsucc operands hne hst
      rw [hfil, (configure_some E L ev_cfg st hcfg).1, hcl, hsl]
      simp

/-- C4, at `-w 3 -p kicad -k 7 in.sexp out` and at `-p kicad-compact -`. -/
theorem profile_prefix_lists_witness :
    ((main spec_engine example_world "prog" [Opt.w "3", Opt.p "kicad", Opt.k "7"]
        ["in.sexp", "out"]).trace.filter is_config_call
      = [Event.sexp_prettify_init ' ' 2 3 true,
         Event.sexp_prettify_compact_list_set ["pts"] 1 7 true])
    ∧ ((main spec_engine example_world "prog" [Opt.p "kicad-compact"]
        ["-"]).trace.filter is_config_call
      = [Event.sexp_prettify_init ' ' 2 5 true,
         Event.sexp_prettify_compact_list_set ["pts"] 1 40 true,
         Event.sexp_prettify_shortform_set
           ["font", "stroke", "fill", "offset", "rotate", "scale"] 6 true]) :=
  ⟨((profile_prefix_lists spec_engine example_world "prog"
      [Opt.w "3", Opt.p "kicad", Opt.k "7"] [Opt.w "3"] [Opt.k "7"]
      ⟨3, ["pts"], 7, [], styleProfile.STYLE_PROFILE_KICAD_STANDARD⟩ rfl (by decide)).1
      rfl).2.2 ["in.sexp", "out"] |>.2.2 (by decide) rfl,
   ((profile_prefix_lists spec_engine example_world "prog"
      [Opt.p "kicad-compact"] [] []
      ⟨5, ["pts"], 40, ["font", "stroke", "fill", "offset", "rotate", "scale"],
        styleProfile.STYLE_PROFILE_KICAD_COMPACT⟩ rfl (by decide)).2
      rfl).2.2 ["-"] |>.2.2 (by decide) rfl⟩

/-- The prefix lists a configuration call of any run is handed are the lists the
option loop left, with their lengths as counts. -/
theorem handed_lists {σ : Type} (E : Engine σ) (W : World) (prog : String)
    (opts : List Opt) (L : Locals) (operands : List String)
    (hp : option_loop E prog (initial_locals E) opts = Except.ok L) :
    (∀ ptrs count limit ret, Event.sexp_prettify_compact_list_set ptrs count limit ret
        ∈ (main E W prog opts operands).trace →
        ptrs = L.compact_list_prefixes ∧ count = L.compact_list_prefixes.length
          ∧ limit = L.compact_list_prefixes_wrap_threshold ∧ L.compact_list_prefixes ≠ [])
    ∧ (∀ ptrs count ret, Event.sexp_prettify_shortform_set ptrs count ret
        ∈ (main E W prog opts operands).trace →
        ptrs = L.shortform_prefixes ∧ count = L.shortform_prefixes.length
          ∧ L.shortform_prefixes ≠ []) := by
  have hevents : ∀ ev : Event,
      ev ∈ (main E W prog opts operands).trace → is_config_call ev = true →
        ev ∈ (configure E L).1 := by
    intro ev hm hc
    obtain ⟨L2, hp2, h2⟩ := main_config_event E W prog opts operands ev hm hc
    rw [hp] at hp2
    cases hp2
    exact h2
  refine ⟨?_, ?_⟩
  · intro ptrs count limit ret hm
    rcases mem_configure E L _ (hevents _ hm rfl) with ⟨r, h⟩ | ⟨hne, r, h⟩ | ⟨hne, r, h⟩
    · simp at h
    · simp only [Event.sexp_prettify_compact_list_set.injEq] at h
      exact ⟨h.1, h.2.1, h.2.2.1, hne⟩
    · simp at h
  · intro ptrs count ret hm
    rcases mem_configure E L _ (hevents _ hm rfl) with ⟨r, h⟩ | ⟨hne, r, h⟩ | ⟨hne, r, h⟩
    · simp at h
    · simp at h
    · simp only [Event.sexp_prettify_shortform_set.injEq] at h
      exact ⟨h.1, h.2.1, hne⟩

/-- C6, amended. The lists `main` hands to the two setters are the lists the
option loop left, unchanged: the driver checks nothing and drops nothing.  They
hold no empty and no duplicated string whenever the arguments that make them up
do: without `-p`, when the `-l` (the `-s`) arguments are non-empty and pairwise
distinct; with a last `-p`, when the `-l` arguments after it are non-empty,
pairwise distinct and not `pts`, and the `-s` arguments after it are non-empty,
pairwise distinct and, under `kicad-compact`, none of the six shortform
prefixes. -/
theorem clean_arguments_clean_lists {σ : Type} (E : Engine σ) (W : World) (prog : String)
    (opts : List Opt) (L : Locals)
    (hp : option_loop E prog (initial_locals E) opts = Except.ok L) :
    ((∀ o ∈ opts, is_p o = false) →
      ("" ∉ l_args opts → (l_args opts).Nodup →
        ∀ operands ptrs count limit ret,
          Event.sexp_prettify_compact_list_set ptrs count limit ret
            ∈ (main E W prog opts operands).trace → "" ∉ ptrs ∧ ptrs.Nodup)
      ∧ ("" ∉ s_args opts → (s_args opts).Nodup →
        ∀ operands ptrs count ret,
          Event.sexp_prettify_shortform_set ptrs count ret
            ∈ (main E W prog opts operands).trace → "" ∉ ptrs ∧ ptrs.Nodup))
    ∧ (∀ (pre post : List Opt) (a : String), opts = pre ++ Opt.p a :: post →
      (∀ o ∈ post, is_p o = false) →
      ("" ∉ l_args post → ("pts" :: l_args post).Nodup →
        ∀ operands ptrs count limit ret,
          Event.sexp_prettify_compact_list_set ptrs count limit ret
            ∈ (main E W prog opts operands).trace → "" ∉ ptrs ∧ ptrs.Nodup)
      ∧ ("" ∉ s_args post →
          ((if L.kicad_profile_active = styleProfile.STYLE_PROFILE_KICAD_COMPACT then
              ["font", "stroke", "fill", "offset", "rotate", "scale"] else [])
            ++ s_args post).Nodup →
        ∀ operands ptrs count ret,
          Event.sexp_prettify_shortform_set ptrs count ret
            ∈ (main E W prog opts operands).trace → "" ∉ ptrs ∧ ptrs.Nodup)) := by
  refine ⟨?_, ?_⟩
  · intro hnp
    have h := option_loop_not_p E prog _ L opts hp hnp
    simp only [initial_locals, List.nil_append] at h
    refine ⟨?_, ?_⟩
    · intro he hd operands ptrs count limit ret hm
      have := ((handed_lists E W prog opts L operands hp).1 ptrs count limit ret hm).1
      rw [this, h.1]
      exact ⟨he, hd⟩
    · intro he hd operands ptrs count ret hm
      have := ((handed_lists E W prog opts L operands hp).2 ptrs count ret hm).1
      rw [this, h.2.1]
      exact ⟨he, hd⟩
  · intro pre post a hopts hnp
    subst hopts
    obtain ⟨L1, _, _, _, hcl, hsl⟩ := option_loop_last_p E prog _ L pre post a hp hnp
    refine ⟨?_, ?_⟩
    · intro he hd operands ptrs count limit ret hm
      have := ((handed_lists E W prog _ L operands hp).1 ptrs count limit ret hm).1
      rw [this, hcl]
      refine ⟨?_, hd⟩
      simp only [List.mem_cons, not_or]
      exact ⟨by decide, he⟩
    · intro he hd operands ptrs count ret hm
      have := ((handed_lists E W prog _ L operands hp).2 ptrs count ret hm).1
      rw [this, hsl]
      refine ⟨?_, hd⟩
      simp only [List.mem_append, not_or]
      refine ⟨?_, he⟩
      split <;> decide

/-- C6, amended, at `-p kicad-compact -l xy -s size in.sexp`. -/
theorem clean_arguments_clean_lists_witness :
    (Event.sexp_prettify_compact_list_set ["pts", "xy"] 2 40 true
        ∈ (main spec_engine example_world "prog"
            [Opt.p "kicad-compact", Opt.l "xy", Opt.s "size"] ["in.sexp"]).trace
      ∧ "" ∉ ["pts", "xy"] ∧ ["pts", "xy"].Nodup)
    ∧ (Event.sexp_prettify_shortform_set
          ["font", "stroke", "fill", "offset", "rotate", "scale", "size"] 7 true
        ∈ (main spec_engine example_world "prog"
            [Opt.p "kicad-compact", Opt.l "xy", Opt.s "size"] ["in.sexp"]).trace
      ∧ "" ∉ ["font", "stroke", "fill", "offset", "rotate", "scale", "size"]
      ∧ ["font", "stroke", "fill", "offset", "rotate", "scale", "size"].Nodup) := by
  have h := (clean_arguments_clean_lists spec_engine example_world "prog"
    [Opt.p "kicad-compact", Opt.l "xy", Opt.s "size"]
    ⟨5, ["pts", "xy"], 40, ["font", "stroke", "fill", "offset", "rotate", "scale", "size"],
      styleProfile.STYLE_PROFILE_KICAD_COMPACT⟩ rfl).2
    [] [Opt.l "xy", Opt.s "size"] "kicad-compact" rfl (by decide)
  have hc : Event.sexp_prettify_compact_list_set ["pts", "xy"] 2 40 true
      ∈ (main spec_engine example_world "prog"
          [Opt.p "kicad-compact", Opt.l "xy", Opt.s "size"] ["in.sexp"]).trace := by decide
  have hs : Event.sexp_prettify_shortform_set
        ["font", "stroke", "fill", "offset", "rotate", "scale", "size"] 7 true
      ∈ (main spec_engine example_world "prog"
          [Opt.p "kicad-compact", Opt.l "xy", Opt.s "size"] ["in.sexp"]).trace := by decide
  exact ⟨⟨hc, h.1 (by decide) (by decide) ["in.sexp"] _ _ _ _ hc⟩,
         ⟨hs, h.2 (by decide) (by decide) ["in.sexp"] _ _ _ hs⟩⟩

/-- C6 as stated fails at `-l a -l a -s "" -`: the option loop accepts the
command line, and `main` hands `sexp_prettify_compact_list_set` the list `a, a`
and `sexp_prettify_shortform_set` a list holding the empty string. -/
theorem duplicate_and_empty_prefixes_handed_over :
    (∃ L, option_loop spec_engine "prog" (initial_locals spec_engine)
        [Opt.l "a", Opt.l "a", Opt.s ""] = Except.ok L)
    ∧ Event.sexp_prettify_compact_list_set ["a", "a"] 2 40 true
        ∈ (main spec_engine example_world "prog" [Opt.l "a", Opt.l "a", Opt.s ""]
            ["-"]).trace
    ∧ ¬ (["a", "a"] : List String).Nodup
    ∧ Event.sexp_prettify_shortform_set [""] 1 false
        ∈ (main spec_engine example_world "prog" [Opt.l "a", Opt.l "a", Opt.s ""]
            ["-"]).trace
    ∧ "" ∈ ([""] : List String) :=
  ⟨⟨_, rfl⟩, by decide, by decide, by decide, by decide⟩

/-! ## When the setters are called -/

/-- When `sexp_prettify_init` succeeds and the compact list is not empty, the
configuration block calls `sexp_prettify_compact_list_set`. -/
theorem compact_called {σ : Type} (E : Engine σ) (L : Locals)
    (hinit : (E.sexp_prettify_init E.zero E.PRETTIFY_SEXPR_KICAD_DEFAULT_INDENT_CHAR
      E.PRETTIFY_SEXPR_KICAD_DEFAULT_INDENT_SIZE L.wrap_threshold).1 = true)
    (hne : L.compact_list_prefixes ≠ []) :
    ∃ ret, Event.sexp_prettify_compact_list_set L.compact_list_prefixes
        L.compact_list_prefixes.length L.compact_list_prefixes_wrap_threshold ret
      ∈ (configure E L).1 := by
  refine ⟨(E.sexp_prettify_compact_list_set
        (E.sexp_prettify_init E.zero E.PRETTIFY_SEXPR_KICAD_DEFAULT_INDENT_CHAR
          E.PRETTIFY_SEXPR_KICAD_DEFAULT_INDENT_SIZE L.wrap_threshold).2
        L.compact_list_prefixes L.compact_list_prefixes.length
        L.compact_list_prefixes_wrap_threshold).1, ?_⟩
  unfold configure configure_compact configure_shortform
  simp only [hinit, if_true, hne, ne_eq, not_false_eq_true]
  cases (E.sexp_prettify_compact_list_set
        (E.sexp_prettify_init E.zero E.PRETTIFY_SEXPR_KICAD_DEFAULT_INDENT_CHAR
          E.PRETTIFY_SEXPR_KICAD_DEFAULT_INDENT_SIZE L.wrap_threshold).2
        L.compact_list_prefixes L.compact_list_prefixes.length
        L.compact_list_prefixes_wrap_threshold).1
  · simp
  · simp only [if_true]
    by_cases hs : L.shortform_prefixes = []
    · simp [hs]
    · simp only [hs, ne_eq, not_false_eq_true, if_true]
      split <;> simp_all

/-- When `sexp_prettify_init` succeeds, and `sexp_prettify_compact_list_set`
too if the compact list is not empty, and the shortform list is not empty, the
configuration block calls `sexp_prettify_shortform_set`. -/
theorem shortform_called {σ : Type} (E : Engine σ) (L : Locals)
    (hinit : (E.sexp_prettify_init E.zero E.PRETTIFY_SEXPR_KICAD_DEFAULT_INDENT_CHAR
      E.PRETTIFY_SEXPR_KICAD_DEFAULT_INDENT_SIZE L.wrap_threshold).1 = true)
    (hcompact : L.compact_list_prefixes = [] ∨
      (E.sexp_prettify_compact_list_set
        (E.sexp_prettify_init E.zero E.PRETTIFY_SEXPR_KICAD_DEFAULT_INDENT_CHAR
          E.PRETTIFY_SEXPR_KICAD_DEFAULT_INDENT_SIZE L.wrap_threshold).2
        L.compact_list_prefixes L.compact_list_prefixes.length
        L.compact_list_prefixes_wrap_threshold).1 = true)
    (hne : L.shortform_prefixes ≠ []) :
    ∃ ret, Event.sexp_prettify_shortform_set L.shortform_prefixes
        L.shortform_prefixes.length ret ∈ (configure E L).1 := by
  unfold configure configure_compact configure_shortform
  by_cases hc : L.compact_list_prefixes = []
  · simp only [hinit, if_true, hc, hne, ne_eq, not_true_eq_false, not_false_eq_true,
      if_false]
    split <;> (rename_i heq; simp only [Prod.mk.injEq] at heq; obtain ⟨rfl, _⟩ := heq; simp)
  · rcases hcompact with h | h
    · exact absurd h hc
    · simp only [hinit, if_true, hc, hne, ne_eq, not_false_eq_true, h]
      split <;> (rename_i heq; simp only [Prod.mk.injEq] at heq; obtain ⟨rfl, _⟩ := heq; simp)

/-- With both lists empty the configuration block is the `sexp_prettify_init`
call alone. -/
theorem configure_empty_lists {σ : Type} (E : Engine σ) (L : Locals)
    (hinit : (E.sexp_prettify_init E.zero E.PRETTIFY_SEXPR_KICAD_DEFAULT_INDENT_CHAR
      E.PRETTIFY_SEXPR_KICAD_DEFAULT_INDENT_SIZE L.wrap_threshold).1 = true)
    (hc : L.compact_list_prefixes = []) (hs : L.shortform_prefixes = []) :
    configure E L
      = ([Event.sexp_prettify_init E.PRETTIFY_SEXPR_KICAD_DEFAULT_INDENT_CHAR
            E.PRETTIFY_SEXPR_KICAD_DEFAULT_INDENT_SIZE L.wrap_threshold true],
         some (E.sexp_prettify_init E.zero E.PRETTIFY_SEXPR_KICAD_DEFAULT_INDENT_CHAR
            E.PRETTIFY_SEXPR_KICAD_DEFAULT_INDENT_SIZE L.wrap_threshold).2) := by
  simp [configure, configure_compact, configure_shortform, hinit, hc, hs]

/-- Once both streams are open the trace of `main` holds the events of the
configuration block. -/
theorem configure_in_trace {σ : Type} (E : Engine σ) (W : World) (prog : String)
    (opts : List Opt) (L : Locals) (src : String) (rest : List String)
    (ev_src ev_dst : List Event) (s : IStream) (d : OStream) (input : List Char)
    (hp : option_loop E prog (initial_locals E) opts = Except.ok L)
    (hs : open_src W src = (ev_src, some (s, input)))
    (hd : open_dst W rest.head? = (ev_dst, some d)) (ev : Event)
    (h : ev ∈ (configure E L).1) : ev ∈ (main E W prog opts (src :: rest)).trace := by
  rw [main_of_parsed E W prog opts L src rest hp]
  simp only [hs, hd]
  rcases hcfg : configure E L with ⟨ev_cfg, _ | st⟩ <;> rw [hcfg] at h <;> simp at h ⊢
    <;> simp [h]

/-- C10, amended. On a run that reaches the configuration block (the option loop
went through, `SOURCE` is there and both streams are open) and in which
`sexp_prettify_init` succeeds: `sexp_prettify_compact_list_set` is called if and
only if the final compact list is not empty; if that call, when made, succeeds
too, `sexp_prettify_shortform_set` is called if and only if the final shortform
list is not empty.  Every such call gets the final list, a count equal to its
length and at least 1, and (for the compact list) the column limit, which is
positive when the header default is.  A setter whose list is empty is skipped
and the engine keeps what the calls made have established: with both lists
empty processing starts on the state `sexp_prettify_init` left, with only the
compact list empty on the state `sexp_prettify_shortform_set` left when called
on that of `sexp_prettify_init`, with only the shortform list empty on the
state `sexp_prettify_compact_list_set` left. -/
theorem setters_called_iff_nonempty {σ : Type} (E : Engine σ) (W : World) (prog : String)
    (opts : List Opt) (L : Locals) (src : String) (rest : List String)
    (ev_src ev_dst : List Event) (s : IStream) (d : OStream) (input : List Char)
    (hp : option_loop E prog (initial_locals E) opts = Except.ok L)
    (hs : open_src W src = (ev_src, some (s, input)))
    (hd : open_dst W rest.head? = (ev_dst, some d))
    (hinit : (E.sexp_prettify_init E.zero E.PRETTIFY_SEXPR_KICAD_DEFAULT_INDENT_CHAR
      E.PRETTIFY_SEXPR_KICAD_DEFAULT_INDENT_SIZE L.wrap_threshold).1 = true) :
    ((∃ ptrs count limit ret, Event.sexp_prettify_compact_list_set ptrs count limit ret
          ∈ (main E W prog opts (src :: rest)).trace)
        ↔ L.compact_list_prefixes ≠ [])
    ∧ (∀ ptrs count limit ret, Event.sexp_prettify_compact_list_set ptrs count limit ret
          ∈ (main E W prog opts (src :: rest)).trace →
        ptrs = L.compact_list_prefixes ∧ count = ptrs.length ∧ 0 < count
          ∧ limit = L.compact_list_prefixes_wrap_threshold
          ∧ (0 < E.PRETTIFY_SEXPR_KICAD_DEFAULT_COMPACT_LIST_COLUMN_LIMIT → 0 < limit))
    ∧ ((L.compact_list_prefixes = [] ∨
          (E.sexp_prettify_compact_list_set
            (E.sexp_prettify_init E.zero E.PRETTIFY_SEXPR_KICAD_DEFAULT_INDENT_CHAR
              E.PRETTIFY_SEXPR_KICAD_DEFAULT_INDENT_SIZE L.wrap_threshold).2
            L.compact_list_prefixes L.compact_list_prefixes.length
            L.compact_list_prefixes_wrap_threshold).1 = true) →
        ((∃ ptrs count ret, Event.sexp_prettify_shortform_set ptrs count ret
            ∈ (main E W prog opts (src :: rest)).trace)
          ↔ L.shortform_prefixes ≠ []))
    ∧ (∀ ptrs count ret, Event.sexp_prettify_shortform_set ptrs count ret
          ∈ (main E W prog opts (src :: rest)).trace →
        ptrs = L.shortform_prefixes ∧ count = ptrs.length ∧ 0 < count)
    ∧ (L.compact_list_prefixes = [] → L.shortform_prefixes = [] →
        main E W prog opts (src :: rest)
          = ⟨Status.EXIT_SUCCESS,
              ev_src ++ ev_dst
                ++ [Event.sexp_prettify_init E.PRETTIFY_SEXPR_KICAD_DEFAULT_INDENT_CHAR
                      E.PRETTIFY_SEXPR_KICAD_DEFAULT_INDENT_SIZE L.wrap_threshold true]
                ++ process E s d
                    (E.sexp_prettify_init E.zero E.PRETTIFY_SEXPR_KICAD_DEFAULT_INDENT_CHAR
                      E.PRETTIFY_SEXPR_KICAD_DEFAULT_INDENT_SIZE L.wrap_threshold).2
                    input⟩)
    ∧ (L.compact_list_prefixes = [] → L.shortform_prefixes ≠ [] →
        (E.sexp_prettify_shortform_set
          (E.sexp_prettify_init E.zero E.PRETTIFY_SEXPR_KICAD_DEFAULT_INDENT_CHAR
            E.PRETTIFY_SEXPR_KICAD_DEFAULT_INDENT_SIZE L.wrap_threshold).2
          L.shortform_prefixes L.shortform_prefixes.length).1 = true →
        main E W prog opts (src :: rest)
          = ⟨Status.EXIT_SUCCESS,
              ev_src ++ ev_dst
                ++ [Event.sexp_prettify_init E.PRETTIFY_SEXPR_KICAD_DEFAULT_INDENT_CHAR
                      E.PRETTIFY_SEXPR_KICAD_DEFAULT_INDENT_SIZE L.wrap_threshold true,
                    Event.sexp_prettify_shortform_set L.shortform_prefixes
                      L.shortform_prefixes.length true]
                ++ process E s d
                    (E.sexp_prettify_shortform_set
                      (E.sexp_prettify_init E.zero
                        E.PRETTIFY_SEXPR_KICAD_DEFAULT_INDENT_CHAR
                        E.PRETTIFY_SEXPR_KICAD_DEFAULT_INDENT_SIZE L.wrap_threshold).2
                      L.shortform_prefixes L.shortform_prefixes.length).2
                    input⟩)
    ∧ (L.compact_list_prefixes ≠ [] → L.shortform_prefixes = [] →
        (E.sexp_prettify_compact_list_set
          (E.sexp_prettify_init E.zero E.PRETTIFY_SEXPR_KICAD_DEFAULT_INDENT_CHAR
            E.PRETTIFY_SEXPR_KICAD_DEFAULT_INDENT_SIZE L.wrap_threshold).2
          L.compact_list_prefixes L.compact_list_prefixes.length
          L.compact_list_prefixes_wrap_threshold).1 = true →
        main E W prog opts (src :: rest)
          = ⟨Status.EXIT_SUCCESS,
              ev_src ++ ev_dst
                ++ [Event.sexp_prettify_init E.PRETTIFY_SEXPR_KICAD_DEFAULT_INDENT_CHAR
                      E.PRETTIFY_SEXPR_KICAD_DEFAULT_INDENT_SIZE L.wrap_threshold true,
                    Event.sexp_prettify_compact_list_set L.compact_list_prefixes
                      L.compact_list_prefixes.length
                      L.compact_list_prefixes_wrap_threshold true]
                ++ process E s d
                    (E.sexp_prettify_compact_list_set
                      (E.sexp_prettify_init E.zero
                        E.PRETTIFY_SEXPR_KICAD_DEFAULT_INDENT_CHAR
                        E.PRETTIFY_SEXPR_KICAD_DEFAULT_INDENT_SIZE L.wrap_threshold).2
                      L.compact_list_prefixes L.compact_list_prefixes.length
                      L.compact_list_prefixes_wrap_threshold).2
                    input⟩) := by
  have hh := handed_lists E W prog opts L (src :: rest) hp
  have hin := configure_in_trace E W prog opts L src rest ev_src ev_dst s d input hp hs hd
  refine ⟨⟨?_, ?_⟩, ?_, ?_, ?_, ?_, ?_, ?_⟩
  · rintro ⟨ptrs, count, limit, ret, hm⟩
    exact (hh.1 ptrs count limit ret hm).2.2.2
  · intro hne
    obtain ⟨ret, hm⟩ := compact_called E L hinit hne
    exact ⟨_, _, _, ret, hin _ hm⟩
  · intro ptrs count limit ret hm
    obtain ⟨h1, h2, h3, h4⟩ := hh.1 ptrs count limit ret hm
    refine ⟨h1, by rw [h2, h1], ?_, h3, ?_⟩
    · rw [h2]; exact List.length_pos.mpr h4
    · intro hk
      rw [h3]
      exact (option_loop_pos E prog _ L opts hp).2 hk
  · intro hcompact
    refine ⟨?_, ?_⟩
    · rintro ⟨ptrs, count, ret, hm⟩
      exact (hh.2 ptrs count ret hm).2.2
    · intro hne
      obtain ⟨ret, hm⟩ := shortform_called E L hinit hcompact hne
      exact ⟨_, _, ret, hin _ hm⟩
  · intro ptrs count ret hm
    obtain ⟨h1, h2, h3⟩ := hh.2 ptrs count ret hm
    refine ⟨h1, by rw [h2, h1], ?_⟩
    rw [h2]; exact List.length_pos.mpr h3
  · intro hc hsf
    rw [main_of_parsed E W prog opts L src rest hp]
    simp only [hs, hd, configure_empty_lists E L hinit hc hsf]
  · intro hc hsf hret
    rw [main_of_parsed E W prog opts L src rest hp]
    simp [hs, hd, configure, configure_compact, configure_shortform, hinit, hc, hsf, hret]
  · intro hc hsf hret
    rw [main_of_parsed E W prog opts L src rest hp]
    simp [hs, hd, configure, configure_compact, configure_shortform, hinit, hc, hsf, hret]

/-- C10, amended, at `-l pts -s font -k 60 -` on standard input. -/
theorem setters_called_iff_nonempty_witness :
    ((∃ ptrs count limit ret, Event.sexp_prettify_compact_list_set ptrs count limit ret
          ∈ (main spec_engine example_world "prog" [Opt.l "pts", Opt.s "font", Opt.k "60"]
              ["-"]).trace)
        ↔ ["pts"] ≠ [])
    ∧ ((∃ ptrs count ret, Event.sexp_prettify_shortform_set ptrs count ret
          ∈ (main spec_engine example_world "prog" [Opt.l "pts", Opt.s "font", Opt.k "60"]
              ["-"]).trace)
        ↔ ["font"] ≠ [])
    ∧ Event.sexp_prettify_compact_list_set ["pts"] 1 60 true
        ∈ (main spec_engine example_world "prog" [Opt.l "pts", Opt.s "font", Opt.k "60"]
            ["-"]).trace := by
  have h := setters_called_iff_nonempty spec_engine example_world "prog"
    [Opt.l "pts", Opt.s "font", Opt.k "60"]
    ⟨5, ["pts"], 60, ["font"], styleProfile.STYLE_PROFILE_NONE⟩ "-" []
    [] [] IStream.cin OStream.cout ['(', 'a', ' ', 'b', ')'] rfl rfl rfl rfl
  exact ⟨h.1, h.2.2.1 (Or.inr rfl), by decide⟩

/-- C10 as stated fails at `-l "" -s a -`: the final shortform list is `a`, not
empty, and the configuration block is reached with `sexp_prettify_init`
succeeding, but the engine rejects the empty compact entry, the `assert` on
`sexp_prettify_compact_list_set` fails, and `sexp_prettify_shortform_set` is
never called. -/
theorem shortform_set_skipped_after_failed_assert :
    option_loop spec_engine "prog" (initial_locals spec_engine) [Opt.l "", Opt.s "a"]
      = Except.ok ⟨5, [""], 40, ["a"], styleProfile.STYLE_PROFILE_NONE⟩
    ∧ (["a"] : List String) ≠ []
    ∧ main spec_engine example_world "prog" [Opt.l "", Opt.s "a"] ["-"]
        = ⟨Status.assert_failed,
            [Event.sexp_prettify_init ' ' 2 5 true,
             Event.sexp_prettify_compact_list_set [""] 1 40 false]⟩
    ∧ ¬ ∃ ptrs count ret, Event.sexp_prettify_shortform_set ptrs count ret
        ∈ (main spec_engine example_world "prog" [Opt.l "", Opt.s "a"] ["-"]).trace := by
  refine ⟨rfl, by decide, rfl, ?_⟩
  rintro ⟨ptrs, count, ret, hm⟩
  have h : main spec_engine example_world "prog" [Opt.l "", Opt.s "a"] ["-"]
      = ⟨Status.assert_failed,
          [Event.sexp_prettify_init ' ' 2 5 true,
           Event.sexp_prettify_compact_list_set [""] 1 40 false]⟩ := rfl
  rw [h] at hm
  simp at hm

/-! ## Stream selection -/

end SexpPrettifyCli
